import Mathlib

/-!
Verification development for the `zelda` habit-assistant backend.

The Python modules `backend/intent_parser.py`, `backend/habit_automation.py`,
`backend/voice_command_handler.py` and the unified pipeline in
`backend/app_api.py` are shallowly embedded below.  Strings are modelled as
`List Char` over the ASCII fragment (Python's `str.lower`, `str.strip`,
`str.split` and SQLite's `LOWER` are modelled by their ASCII behaviour, which
is exact for all inputs the proofs evaluate).  Confidence scores, written as
decimal literals in the source (`0.85`, `0.7`, ...), are represented in
hundredths as naturals (`85`, `70`, ...), an order-preserving change of
coordinates that keeps every comparison the source makes (`> 0.5`, `> 0.6`,
`< 0.7`) decidable in the kernel.  Python regular expressions are embedded
via a small backtracking engine (`RE`, `reMatch`, `reSearch`) whose result
list is ordered by backtracking priority exactly as CPython's `re` engine
orders its attempts for the constructs the source uses (literal alternation,
lazy/greedy repetition over non-nullable bodies, character classes, `$`).
-/

/-- Strings as explicit ASCII character lists. -/
abbrev Str := List Char

/-- Python whitespace for `str.strip` / `str.split` / regex `\s`
(ASCII fragment: space, tab, newline, carriage return, vertical tab,
form feed). -/
def pyIsSpace (c : Char) : Bool :=
  c = ' ' || c = '\t' || c = '\n' || c = '\r' || c = '\x0b' || c = '\x0c'

/-- Python `str.strip()`. -/
def pyStrip (s : Str) : Str :=
  ((s.dropWhile pyIsSpace).reverse.dropWhile pyIsSpace).reverse

/-- Python `str.lower()` (ASCII fragment); also models SQLite `LOWER`. -/
def lowerStr (s : Str) : Str := s.map Char.toLower

/-- Prefix test on character lists. -/
def startsWith (s p : Str) : Bool :=
  match p, s with
  | [], _ => true
  | _ :: _, [] => false
  | pc :: pr, sc :: sr => pc = sc && startsWith sr pr

/-- Python `needle in hay` substring containment. -/
def containsSub (hay needle : Str) : Bool :=
  match hay with
  | [] => startsWith [] needle
  | _ :: rest => startsWith hay needle || containsSub rest needle

/-- Dropping a prefix never lengthens a list. -/
theorem dropWhile_length_le (p : Char → Bool) (l : List Char) :
    (l.dropWhile p).length ≤ l.length := by
  induction l with
  | nil => simp
  | cons c rest ih =>
    simp only [List.dropWhile_cons]
    split
    · exact Nat.le_trans ih (Nat.le_succ _)
    · simp

/-- Worker for `pySplit`: `cur` is the current word, reversed. -/
def pySplitGo (cur : Str) (s : Str) : List Str :=
  match s with
  | [] => if cur = [] then [] else [cur.reverse]
  | c :: rest =>
    if pyIsSpace c then
      if cur = [] then pySplitGo [] rest else cur.reverse :: pySplitGo [] rest
    else pySplitGo (c :: cur) rest

/-- Python `str.split()` with no separator: split on whitespace runs,
dropping empty fields. -/
def pySplit (s : Str) : List Str := pySplitGo [] s

/-- Python `' '.join(words)`. -/
def joinSpace (ws : List Str) : Str :=
  match ws with
  | [] => []
  | [w] => w
  | w :: rest => w ++ ' ' :: joinSpace rest

/-- Worker for `collapseWS`: `inRun` records whether the previous
character was whitespace (already emitted as one space). -/
def collapseGo (inRun : Bool) (s : Str) : Str :=
  match s with
  | [] => []
  | c :: rest =>
    if pyIsSpace c then
      if inRun then collapseGo true rest else ' ' :: collapseGo true rest
    else c :: collapseGo false rest

/-- Python `re.sub(r'\s+', ' ', s)`: replace each maximal whitespace run by a
single space (leading and trailing runs included). -/
def collapseWS (s : Str) : Str := collapseGo false s

/-- Python `str.title()` (ASCII fragment): uppercase a letter that follows a
non-letter, lowercase the other letters; `prevAlpha` tracks whether the
previous character was a letter. -/
def titleGo (prevAlpha : Bool) (s : Str) : Str :=
  match s with
  | [] => []
  | c :: rest =>
    (if c.isAlpha then (if prevAlpha then c.toLower else c.toUpper) else c)
      :: titleGo c.isAlpha rest

/-- Python `str.title()`. -/
def titleCase (s : Str) : Str := titleGo false s

/-- First `some` produced by `f` over `l`, in order (Python loop with early
`return`). -/
def firstSome {α β : Type} (l : List α) (f : α → Option β) : Option β :=
  match l with
  | [] => none
  | a :: rest =>
    match f a with
    | some b => some b
    | none => firstSome rest f

/-- Regular-expression abstract syntax, covering exactly the constructs the
source patterns use.  `starL`/`starG` are lazy/greedy `*` (every starred
body in the source consumes at least one character, which the matcher
enforces); `grp` is a numbered capturing group; `eos` is `$`. -/
inductive RE where
  | nul : RE
  | eps : RE
  | lit : Str → RE
  | cls : (Char → Bool) → RE
  | alt : RE → RE → RE
  | seq : RE → RE → RE
  | starL : RE → RE
  | starG : RE → RE
  | grp : Nat → RE → RE
  | eos : RE

/-- Captured groups: group number paired with captured text. -/
abbrev Caps := List (Nat × Str)

/-- Structural size of a pattern (bounds the matcher's fuel). -/
def reSize (re : RE) : Nat :=
  match re with
  | .nul | .eps | .eos | .lit _ | .cls _ => 1
  | .alt r s | .seq r s => reSize r + reSize s + 1
  | .starL r | .starG r | .grp _ r => reSize r + 1

/-- Fuelled backtracking matcher.  `reMatchF fuel re cs` lists every way
`re` can match a prefix of `cs` as `(remaining suffix, captures)`, ordered
by the engine's backtracking priority: alternatives left to right, lazy
stars shortest first, greedy stars longest first.  The head of the list is
the match CPython's `re` module commits to.  Star iteration requires
strict progress (`rest.length < cs.length`), exact for the source's
patterns, whose starred bodies can never match the empty string.  Every
recursive call strictly decreases the pair `(cs.length, reSize re)`
lexicographically, so from `(n, s)` at most `(n + 1) * (s + 1)` nested
calls can occur; the fuel `reMatch` supplies therefore never runs out and
the `fuel = 0` branch is dead code. -/
def reMatchF (fuel : Nat) (re : RE) (cs : Str) : List (Str × Caps) :=
  match fuel with
  | 0 => []
  | fuel + 1 =>
    match re with
    | .nul => []
    | .eps => [(cs, [])]
    | .lit l => if startsWith cs l then [(cs.drop l.length, [])] else []
    | .cls p =>
      match cs with
      | [] => []
      | c :: rest => if p c then [(rest, [])] else []
    | .alt r s => reMatchF fuel r cs ++ reMatchF fuel s cs
    | .seq r s =>
      (reMatchF fuel r cs).flatMap fun m =>
        (reMatchF fuel s m.1).map fun n => (n.1, m.2 ++ n.2)
    | .starL r =>
      (cs, []) ::
        ((reMatchF fuel r cs).flatMap fun m =>
          if m.1.length < cs.length then
            (reMatchF fuel (.starL r) m.1).map fun n => (n.1, m.2 ++ n.2)
          else [])
    | .starG r =>
      ((reMatchF fuel r cs).flatMap fun m =>
        if m.1.length < cs.length then
          (reMatchF fuel (.starG r) m.1).map fun n => (n.1, m.2 ++ n.2)
        else []) ++ [(cs, [])]
    | .grp n r =>
      (reMatchF fuel r cs).map fun m => (m.1, m.2 ++ [(n, cs.take (cs.length - m.1.length))])
    | .eos => if cs = [] ∨ cs = ['\n'] then [(cs, [])] else []

/-- The matcher with sufficient fuel (see `reMatchF`). -/
def reMatch (re : RE) (cs : Str) : List (Str × Caps) :=
  reMatchF ((cs.length + 1) * (reSize re + 1)) re cs

/-- Captures of the first match found by `re.search`: positions are tried
left to right; at each position the backtracking engine's first result is
taken. -/
def reSearchCaps (re : RE) (cs : Str) : Option Caps :=
  match cs with
  | [] => ((reMatch re []).head?).map fun m => m.2
  | c :: rest =>
    match (reMatch re (c :: rest)).head? with
    | some m => some m.2
    | none => reSearchCaps re rest

/-- Position and length of the first match (for `re.sub`). -/
def reSearchSpan (re : RE) (cs : Str) : Option (Nat × Nat) :=
  match (reMatch re cs).head? with
  | some m => some (0, cs.length - m.1.length)
  | none =>
    match cs with
    | [] => none
    | _ :: rest => (reSearchSpan re rest).map fun pr => (pr.1 + 1, pr.2)

/-- `re.sub(pattern, '', s)` for a `^`-anchored pattern: it can match only at
position 0, so at most the matched prefix is removed. -/
def subAnchoredOnce (re : RE) (cs : Str) : Str :=
  match (reMatch re cs).head? with
  | some m => m.1
  | none => cs

/-- `re.sub(pattern, '', s)` for a `$`-anchored pattern: it can match only
once, at the end, so the single matched span is removed. -/
def subSearchOnce (re : RE) (cs : Str) : Str :=
  match reSearchSpan re cs with
  | some pr => cs.take pr.1 ++ cs.drop (pr.1 + pr.2)
  | none => cs

/-- Largest capturing-group number in a pattern, i.e. Python's
`len(match.groups())` for the source patterns (whose groups are numbered
consecutively from 1). -/
def maxGrp (re : RE) : Nat :=
  match re with
  | .nul | .eps | .lit _ | .cls _ | .eos => 0
  | .alt r s | .seq r s => max (maxGrp r) (maxGrp s)
  | .starL r | .starG r => maxGrp r
  | .grp n r => max n (maxGrp r)

/-- Captured text of group `i` (all capturing groups in the source patterns
are in mandatory positions, so a matched pattern always binds them). -/
def capGet (cp : Caps) (i : Nat) : Option Str :=
  (cp.find? fun p => p.1 = i).map fun p => p.2

/-- Alternation `(?:a|b|...)`, tried left to right. -/
def alts (rs : List RE) : RE :=
  match rs with
  | [] => .nul
  | [r] => r
  | r :: rest => .alt r (alts rest)

/-- Concatenation. -/
def seqs (rs : List RE) : RE :=
  match rs with
  | [] => .eps
  | [r] => r
  | r :: rest => .seq r (seqs rest)

/-- Literal word. -/
def rl (s : String) : RE := .lit s.toList

/-- Alternation of literal words. -/
def lits (ws : List String) : RE := alts (ws.map fun w => RE.lit w.toList)

/-- Case-insensitive literal (for `re.IGNORECASE` applied to mixed-case
input, as in `_clean_habit_name`). -/
def ciLit (s : String) : RE := seqs (s.toList.map fun t => RE.cls fun c => c.toLower = t)

/-- `.` — any character except newline. -/
def dotC : RE := .cls fun c => c ≠ '\n'

/-- `\s`. -/
def wsC : RE := .cls pyIsSpace

/-- `\d`. -/
def digC : RE := .cls Char.isDigit

/-- `[a-zA-Z0-9\s]`. -/
def wordC : RE := .cls fun c => c.isAlphanum || pyIsSpace c

/-- `["\s]`. -/
def quoteWsC : RE := .cls fun c => c = '"' || pyIsSpace c

/-- Negated class `[^...]` (matches newline as well, per `re` semantics). -/
def negC (bad : List Char) : RE := .cls fun c => !(bad.contains c)

/-- Lazy `+?`. -/
def plusL (r : RE) : RE := .seq r (.starL r)

/-- Greedy `+`. -/
def plusG (r : RE) : RE := .seq r (.starG r)

/-- Greedy `?`. -/
def optG (r : RE) : RE := .alt r .eps

/-- Action tags of the intent parser (`habit_action_patterns` keys plus the
non-action results `conversation`, `habit_conversation`, `unknown`;
`complete_habit_date` is a pattern-table key whose extracted result carries
the `complete_habit` action). -/
inductive Act where
  | addHabit | completeHabit | completeHabitDate | editHabit | deleteHabit
  | showHabits | habitStatus
  | navigateHome | navigateHabits | navigateAnalytics | navigateChat | navigateSettings
  | logout | viewAccount | refreshPage | clearData
  | showHelp | appInfo | showToday | showCalendar
  | conversation | habitConversation | unknown
deriving DecidableEq, Repr

/-- `(?:\s*$|daily|every|regularly|\.)` — the terminator shared by several
`add_habit` patterns. -/
def addEnd : RE :=
  alts [seqs [.starG wsC, .eos], rl ("daily"), rl ("every"), rl ("regularly"), rl (".")]

/-- `add_habit` patterns (source order). -/
def addHabitPats : List RE :=
  [ seqs [lits ["add", "create", "start", "begin", "make"], .starL dotC,
      lits ["habit", "routine"], .starL dotC,
      lits ["called", "named", "for", "to"], plusG wsC, .grp 1 (plusL wordC), addEnd],
    seqs [lits ["add", "create", "start", "begin", "make"], .starL dotC,
      lits ["habit", "routine"], .starL dotC,
      rl ("to"), plusG wsC, .grp 1 (plusL wordC), addEnd],
    seqs [lits ["add", "create", "start"], .starL dotC,
      optG (lits ["a", "the"]), .starG wsC, rl ("habit"), .starL dotC,
      lits ["of", "for", "to"], plusG wsC, .grp 1 (plusL wordC), addEnd],
    seqs [lits ["track", "build", "start"], .starL dotC, rl ("habit"), .starL dotC,
      lits ["called", "named", "for", "to"], plusG wsC, .grp 1 (plusL wordC), addEnd],
    seqs [lits ["i want to", "need to", "should"], .starL dotC,
      lits ["start", "begin", "track"], .starL dotC, .grp 1 (plusL wordC),
      plusG wsC, lits ["daily", "every day", "regularly", "as a habit"]],
    seqs [lits ["help me", "remind me"], .starL dotC,
      optG (seqs [rl ("to"), plusG wsC]), lits ["track", "build", "start"], .starL dotC,
      .grp 1 (plusL wordC), plusG wsC, lits ["daily", "every day", "regularly", "habit"]],
    seqs [lits ["new", "a"], plusG wsC, rl ("habit"), .starL dotC,
      lits ["called", "named", "for", "to"], plusG wsC, .grp 1 (plusL wordC), addEnd],
    seqs [rl ("track"), plusG wsC, .grp 1 (plusL wordC),
      plusG wsC, lits ["daily", "every day", "regularly", "as a habit"]],
    seqs [rl ("let"), .starL dotC, lits ["start", "begin"], .starL dotC,
      .grp 1 (plusL wordC), plusG wsC, lits ["habit", "routine", "daily"]] ]

/-- `[^.,!?]+` as a capture body. -/
def freeText : RE := plusG (negC ['.', ',', '!', '?'])

/-- `complete_habit` patterns. -/
def completeHabitPats : List RE :=
  [ seqs [lits ["mark", "complete", "did", "finished", "done", "check off", "completed"],
      .starL dotC, .grp 1 freeText, optG (lits ["today", "for today", "now", "as done"])],
    seqs [lits ["i", "just"], .starL dotC, lits ["did", "finished", "completed"],
      .starL dotC, .grp 1 freeText, optG (lits ["today", "now"])],
    seqs [lits ["completed", "done with", "finished"], .starL dotC, .grp 1 freeText],
    seqs [.grp 1 freeText, .starL dotC, lits ["is", "was"], .starL dotC,
      lits ["done", "completed", "finished"], optG (lits ["today", "now"])],
    seqs [rl ("mark"), .starL dotC, .grp 1 freeText, .starL dotC, rl ("as"),
      .starL dotC, lits ["complete", "done", "finished"]] ]

/-- `complete_habit_date` patterns. -/
def completeHabitDatePats : List RE :=
  [ seqs [lits ["mark", "complete"], .starL dotC, .grp 1 freeText, .starL dotC,
      lits ["as done", "as complete"], .starL dotC, lits ["on", "for"], .starG wsC,
      .grp 2 freeText],
    seqs [lits ["did", "completed", "finished"], .starL dotC, .grp 1 freeText,
      .starL dotC, lits ["on", "yesterday", "last"], .starG wsC,
      .grp 2 (.starG (negC ['.', ',', '!', '?']))],
    seqs [rl ("mark"), .starL dotC, .grp 1 freeText, .starL dotC,
      lits ["done", "complete"], .starL dotC, rl ("on"), .starG wsC, .grp 2 freeText] ]

/-- `edit_habit` patterns. -/
def editHabitPats : List RE :=
  [ seqs [lits ["rename", "change"], .starL dotC, optG (lits ["habit", "routine"]),
      .starL dotC, .grp 1 freeText, .starL dotC, rl ("to"), .starL dotC, .grp 2 freeText],
    seqs [lits ["edit", "modify", "update"], .starL dotC, optG (lits ["habit", "routine"]),
      .starL dotC, .grp 1 freeText],
    seqs [rl ("change"), .starL dotC, .grp 1 freeText, .starL dotC,
      lits ["habit", "routine"], .starL dotC, rl ("to"), .starL dotC, .grp 2 freeText] ]

/-- `[^".,!?]+` as a capture body. -/
def freeTextQ : RE := plusG (negC ['"', '.', ',', '!', '?'])

/-- `delete_habit` patterns. -/
def deleteHabitPats : List RE :=
  [ seqs [lits ["remove", "delete", "stop", "quit", "cancel"], .starL dotC,
      lits ["habit", "routine"], .starL dotC, optG (lits ["called", "named"]),
      .starG quoteWsC, .grp 1 freeTextQ, .starG quoteWsC],
    seqs [lits ["remove", "delete", "stop", "quit", "cancel"], .starL dotC,
      optG (rl ("the")), .starG quoteWsC, .grp 1 freeTextQ, .starG quoteWsC,
      optG (lits ["habit", "routine"])],
    seqs [lits ["don\x27t want to", "no longer want to", "stop"], .starL dotC,
      lits ["track", "do"], .starL dotC, .grp 1 freeText,
      optG (lits ["anymore", "any more"])],
    seqs [lits ["get rid of", "eliminate"], .starL dotC, optG (lits ["habit", "routine"]),
      .starL dotC, optG (lits ["called", "named"]), .starG quoteWsC, .grp 1 freeTextQ,
      .starG quoteWsC] ]

/-- `show_habits` patterns. -/
def showHabitsPats : List RE :=
  [ seqs [lits ["show", "list", "display"], .starL dotC, optG (lits ["my", "all"]),
      .starL dotC, lits ["habits", "routines"]],
    seqs [lits ["what are", "what\x27s"], .starL dotC, optG (rl ("my")), .starL dotC,
      lits ["habits", "routines"]],
    seqs [lits ["view", "see"], .starL dotC, optG (rl ("my")), .starL dotC,
      lits ["habits", "routines"]],
    seqs [lits ["how many", "what"], .starL dotC, lits ["habits", "routines"],
      .starL dotC, lits ["do i have", "i have"]] ]

/-- `habit_status` patterns. -/
def habitStatusPats : List RE :=
  [ seqs [lits ["how am i doing", "progress", "status"], .starL dotC,
      lits ["with", "on"], .starL dotC, .grp 1 freeText],
    seqs [lits ["show", "tell me"], .starL dotC, lits ["progress", "status"],
      .starL dotC, lits ["for", "on", "with"], .starL dotC, .grp 1 freeText],
    seqs [lits ["what\x27s my", "whats my"], .starL dotC, lits ["progress", "streak"],
      .starL dotC, lits ["for", "on", "with"], .starL dotC, .grp 1 freeText],
    seqs [rl ("check"), .starL dotC, .grp 1 freeText, .starL dotC,
      lits ["progress", "status", "streak"]] ]

/-- `navigate_home` patterns. -/
def navigateHomePats : List RE :=
  [ seqs [lits ["go to", "open", "show", "navigate to"], .starL dotC,
      lits ["home", "dashboard", "main"], optG (seqs [plusG wsC, rl ("page")])],
    seqs [lits ["take me to", "bring me to"], .starL dotC, lits ["home", "main", "dashboard"]],
    lits ["home", "main page", "dashboard"],
    seqs [lits ["go back to", "return to"], .starL dotC, lits ["home", "main"]] ]

/-- `navigate_habits` patterns. -/
def navigateHabitsPats : List RE :=
  [ seqs [lits ["go to", "open", "show", "navigate to"], .starL dotC,
      lits ["habits", "habit tracker", "tracking"], optG (seqs [plusG wsC, rl ("page")])],
    seqs [lits ["take me to", "bring me to"], .starL dotC, lits ["habits", "habit tracker"]],
    lits ["habits page", "habit tracker", "tracking page"],
    seqs [lits ["show", "open"], .starL dotC, optG (rl ("my")), .starL dotC, rl ("habits")] ]

/-- `navigate_analytics` patterns. -/
def navigateAnalyticsPats : List RE :=
  [ seqs [lits ["go to", "open", "show", "navigate to"], .starL dotC,
      alts [rl ("analytics"), rl ("stats"), rl ("statistics"),
        .seq (rl ("report")) (optG (rl ("s")))],
      optG (seqs [plusG wsC, rl ("page")])],
    seqs [lits ["take me to", "bring me to"], .starL dotC, lits ["analytics", "stats", "reports"]],
    lits ["analytics page", "statistics", "reports page"],
    seqs [lits ["show", "open"], .starL dotC, optG (rl ("my")), .starL dotC,
      lits ["analytics", "stats", "progress", "reports"]] ]

/-- `navigate_chat` patterns. -/
def navigateChatPats : List RE :=
  [ seqs [lits ["go to", "open", "show", "navigate to"], .starL dotC,
      lits ["chat", "conversation", "talk"], optG (seqs [plusG wsC, rl ("page")])],
    seqs [lits ["take me to", "bring me to"], .starL dotC, lits ["chat", "conversation"]],
    lits ["chat page", "conversation", "talk"],
    seqs [lits ["open", "start"], .starL dotC, lits ["chat", "conversation"]] ]

/-- `navigate_settings` patterns. -/
def navigateSettingsPats : List RE :=
  [ seqs [lits ["go to", "open", "show", "navigate to"], .starL dotC,
      lits ["settings", "preferences", "config"], optG (seqs [plusG wsC, rl ("page")])],
    seqs [lits ["take me to", "bring me to"], .starL dotC, lits ["settings", "preferences"]],
    lits ["settings page", "preferences", "configuration"],
    seqs [lits ["open", "show"], .starL dotC, lits ["settings", "preferences", "config"]] ]

/-- `logout` patterns. -/
def logoutPats : List RE :=
  [ lits ["log out", "logout", "sign out", "signout"],
    seqs [lits ["exit", "quit"], .starL dotC, lits ["account", "app", "application"]],
    lits ["disconnect", "end session"] ]

/-- `view_account` patterns. -/
def viewAccountPats : List RE :=
  [ seqs [lits ["show", "view", "open"], .starL dotC, lits ["account", "profile"],
      optG (seqs [plusG wsC, rl ("info")])],
    seqs [lits ["go to", "navigate to"], .starL dotC, lits ["account", "profile"]],
    lits ["my account", "my profile", "account info", "profile info"] ]

/-- `refresh_page` patterns. -/
def refreshPagePats : List RE :=
  [ seqs [lits ["refresh", "reload"], .starL dotC, lits ["page", "data", "screen"]],
    seqs [lits ["update", "sync"], .starL dotC, lits ["data", "info", "information"]],
    lits ["refresh everything", "reload all"] ]

/-- `clear_data` patterns. -/
def clearDataPats : List RE :=
  [ seqs [lits ["clear", "reset", "delete"], .starL dotC, lits ["all data", "everything"]],
    seqs [lits ["clean", "wipe"], .starL dotC, lits ["data", "storage"]],
    lits ["start over", "reset everything"] ]

/-- `show_help` patterns. -/
def showHelpPats : List RE :=
  [ lits ["help", "assistance", "guide", "tutorial"],
    seqs [lits ["how do i", "how to", "what can i"], .starL dotC, lits ["do", "use", "say"]],
    seqs [lits ["show", "tell me"], .starL dotC, lits ["commands", "options", "features"]],
    lits ["what commands", "voice commands", "available commands"] ]

/-- `app_info` patterns. -/
def appInfoPats : List RE :=
  [ seqs [lits ["about", "version", "info"], .starL dotC, lits ["app", "application", "zelda"]],
    seqs [lits ["what is", "tell me about"], .starL dotC, lits ["this app", "zelda"]],
    lits ["app information", "application info"] ]

/-- `show_today` patterns. -/
def showTodayPats : List RE :=
  [ seqs [lits ["show", "what\x27s"], .starL dotC, lits ["today", "today\x27s"],
      .starL dotC, lits ["habits", "schedule", "tasks"]],
    seqs [lits ["today\x27s", "todays"], .starL dotC, lits ["agenda", "plan", "habits"]],
    seqs [lits ["what do i need to do", "what\x27s on"], .starL dotC,
      lits ["today", "my schedule"]] ]

/-- `show_calendar` patterns. -/
def showCalendarPats : List RE :=
  [ seqs [lits ["show", "open", "view"], .starL dotC, lits ["calendar", "schedule", "dates"]],
    seqs [lits ["go to", "navigate to"], .starL dotC, rl ("calendar")],
    lits ["calendar view", "monthly view", "date picker"] ]

/-- The full `habit_action_patterns` table, in the source's dict insertion
order; `_check_habit_actions` scans it top to bottom, trying each action's
patterns in listed order. -/
def actionTable : List (Act × List RE) :=
  [ (.addHabit, addHabitPats),
    (.completeHabit, completeHabitPats),
    (.completeHabitDate, completeHabitDatePats),
    (.editHabit, editHabitPats),
    (.deleteHabit, deleteHabitPats),
    (.showHabits, showHabitsPats),
    (.habitStatus, habitStatusPats),
    (.navigateHome, navigateHomePats),
    (.navigateHabits, navigateHabitsPats),
    (.navigateAnalytics, navigateAnalyticsPats),
    (.navigateChat, navigateChatPats),
    (.navigateSettings, navigateSettingsPats),
    (.logout, logoutPats),
    (.viewAccount, viewAccountPats),
    (.refreshPage, refreshPagePats),
    (.clearData, clearDataPats),
    (.showHelp, showHelpPats),
    (.appInfo, appInfoPats),
    (.showToday, showTodayPats),
    (.showCalendar, showCalendarPats) ]

/-- `habit_keywords` (substring cues for habit-related conversation). -/
def habitKeywords : List Str :=
  [("habit").toList, ("routine").toList, ("daily").toList, ("track").toList,
   ("streak").toList, ("complete").toList, ("mark").toList, ("meditation").toList,
   ("exercise").toList, ("workout").toList, ("reading").toList, ("water").toList,
   ("study").toList, ("journal").toList, ("walk").toList, ("run").toList,
   ("yoga").toList, ("sleep").toList, ("wake up").toList]

/-- The question-mark conversational cue `\?.*$`. -/
def qmarkPat : RE := seqs [rl ("?"), .starG dotC, .eos]

/-- The keyword conversational cue `weather|time|date|news|joke|story`. -/
def convKeywordPat : RE := lits ["weather", "time", "date", "news", "joke", "story"]

/-- `conversation_patterns`: the flag records whether the source pattern is
`^`-anchored (matched only at position 0) or searched anywhere. -/
def convPats : List (Bool × RE) :=
  [ (true, lits ["hi", "hello", "hey", "good morning", "good evening"]),
    (true, lits ["how are you", "what\x27s up", "how\x27s it going"]),
    (true, alts [.seq (rl ("thank")) (optG (rl ("s"))), rl ("thank you"), rl ("appreciate")]),
    (true, lits ["yes", "no", "ok", "okay", "sure", "alright"]),
    (false, qmarkPat),
    (true, lits ["tell me", "explain", "what is", "what are"]),
    (true, lits ["why", "when", "where", "who", "how"]),
    (false, convKeywordPat) ]

/-- `IntentParser._is_conversational`: true when any conversational pattern
matches. -/
def isConversational (t : Str) : Bool :=
  convPats.any fun p =>
    if p.1 then !(reMatch p.2 t).isEmpty else (reSearchCaps p.2 t).isSome

/-- `IntentParser._contains_habit_keywords`. -/
def containsHabitKeywords (t : Str) : Bool :=
  habitKeywords.any fun k => containsSub t k

/-- Calendar date (proleptic Gregorian), for `datetime.date`. -/
structure CalDate where
  y : Nat
  m : Nat
  d : Nat
deriving DecidableEq, Repr

/-- Gregorian leap year. -/
def isLeap (y : Nat) : Bool :=
  (y % 4 = 0 && y % 100 ≠ 0) || y % 400 = 0

/-- Days in a month. -/
def daysInMonth (y m : Nat) : Nat :=
  if m = 2 then (if isLeap y then 29 else 28)
  else if m = 4 || m = 6 || m = 9 || m = 11 then 30
  else 31

/-- Next calendar day. -/
def succDay (dt : CalDate) : CalDate :=
  if dt.d < daysInMonth dt.y dt.m then ⟨dt.y, dt.m, dt.d + 1⟩
  else if dt.m < 12 then ⟨dt.y, dt.m + 1, 1⟩
  else ⟨dt.y + 1, 1, 1⟩

/-- Previous calendar day. -/
def predDay (dt : CalDate) : CalDate :=
  if dt.d > 1 then ⟨dt.y, dt.m, dt.d - 1⟩
  else if dt.m > 1 then ⟨dt.y, dt.m - 1, daysInMonth dt.y (dt.m - 1)⟩
  else ⟨dt.y - 1, 12, 31⟩

/-- `date + timedelta(days=n)`. -/
def addDays (dt : CalDate) (n : Nat) : CalDate := succDay^[n] dt

/-- `date - timedelta(days=n)`. -/
def subDays (dt : CalDate) (n : Nat) : CalDate := predDay^[n] dt

/-- Decimal digits, zero-padded to width `w`. -/
def padNum (w n : Nat) : Str :=
  let ds := Nat.toDigits 10 n
  List.replicate (w - ds.length) '0' ++ ds

/-- `date.isoformat()`. -/
def isoDate (dt : CalDate) : Str :=
  padNum 4 dt.y ++ '-' :: (padNum 2 dt.m ++ '-' :: padNum 2 dt.d)

/-- Digits to a natural number (`int(...)` on a `\d+` capture). -/
def strToNat (s : Str) : Nat :=
  s.foldl (fun acc c => acc * 10 + (c.toNat - 48)) 0

/-- `(\d{1,2})`. -/
def d12 : RE := .seq digC (optG digC)

/-- The numeric/month date patterns tried by `_parse_date` after the
relative keywords, in source order.  Matching either slash/dash pattern
makes the source `return None`; the September patterns read group 1 as a
day of month (invalid days raise `ValueError`, caught and skipped). -/
def mdyPat : RE :=
  seqs [.grp 1 d12, .cls (fun c => c = '/' || c = '-'), .grp 2 d12,
    .cls (fun c => c = '/' || c = '-'),
    .grp 3 (seqs [digC, digC, digC, digC])]

/-- Year-month-day digits separated by slash or dash (second date pattern). -/
def ymdPat : RE :=
  seqs [.grp 1 (seqs [digC, digC, digC, digC]), .cls (fun c => c = '/' || c = '-'),
    .grp 2 d12, .cls (fun c => c = '/' || c = '-'), .grp 3 d12]

/-- `september (\d{1,2})`. -/
def sepDayPat : RE := seqs [rl ("september "), .grp 1 d12]

/-- `(\d{1,2}) september`. -/
def daySepPat : RE := seqs [.grp 1 d12, rl (" september")]

/-- `IntentParser._parse_date`: natural-language date to ISO string,
relative to `today`; unparseable input gives `none`. -/
def parseDate (today : CalDate) (dateStr : Str) : Option Str :=
  if dateStr = [] then none
  else
    let ds := pyStrip (lowerStr dateStr)
    if containsSub ds (("yesterday").toList) then some (isoDate (subDays today 1))
    else if containsSub ds (("today").toList) then some (isoDate today)
    else if containsSub ds (("tomorrow").toList) then some (isoDate (addDays today 1))
    else if containsSub ds (("last week").toList) then some (isoDate (subDays today 7))
    else if containsSub ds (("next week").toList) then some (isoDate (addDays today 7))
    else
      match reSearchCaps mdyPat ds with
      | some _ => none
      | none =>
        match reSearchCaps ymdPat ds with
        | some _ => none
        | none =>
          match reSearchCaps sepDayPat ds with
          | some cp =>
            let day := strToNat ((capGet cp 1).getD [])
            if 1 ≤ day ∧ day ≤ 30 then some (isoDate ⟨today.y, 9, day⟩)
            else
              match reSearchCaps daySepPat ds with
              | some cp2 =>
                let day2 := strToNat ((capGet cp2 1).getD [])
                if 1 ≤ day2 ∧ day2 ≤ 30 then some (isoDate ⟨today.y, 9, day2⟩)
                else none
              | none => none
          | none =>
            match reSearchCaps daySepPat ds with
            | some cp2 =>
              let day2 := strToNat ((capGet cp2 1).getD [])
              if 1 ≤ day2 ∧ day2 ≤ 30 then some (isoDate ⟨today.y, 9, day2⟩)
              else none
            | none => none

/-- Leading noise patterns of `_clean_habit_name`, applied in order with
`re.sub(..., '', ..., re.IGNORECASE)`; each is `^`-anchored. -/
def noiseLeadPats : List RE :=
  [ seqs [alts [ciLit ("add"), ciLit ("create"), ciLit ("start"), ciLit ("begin"),
      ciLit ("make"), ciLit ("track"), ciLit ("build")], plusG wsC],
    seqs [alts [ciLit ("a"), ciLit ("an"), ciLit ("the")], plusG wsC],
    seqs [alts [ciLit ("habit"), ciLit ("routine")], plusG wsC],
    seqs [alts [ciLit ("called"), ciLit ("named"), ciLit ("for"), ciLit ("to")], plusG wsC],
    seqs [alts [ciLit ("my"), ciLit ("this"), ciLit ("that")], plusG wsC] ]

/-- Trailing noise pattern `\s+(?:habit|routine|daily|every day)$`. -/
def noiseTrailPat : RE :=
  seqs [plusG wsC,
    alts [ciLit ("habit"), ciLit ("routine"), ciLit ("daily"), ciLit ("every day")], .eos]

/-- Stop words removed anywhere by `_clean_habit_name`. -/
def noiseWords : List Str :=
  [("the").toList, ("a").toList, ("an").toList, ("my").toList, ("this").toList,
   ("that").toList, ("for").toList, ("to").toList, ("of").toList, ("with").toList,
   ("called").toList, ("named").toList]

/-- `IntentParser._clean_habit_name`: strip, drop quotes, collapse
whitespace, strip anchored noise phrases, drop stop words, re-join and
title-case. -/
def cleanHabitName (name : Str) : Str :=
  if name = [] then []
  else
    let c1 := pyStrip name
    let c2 := c1.filter fun c => !(c = '"' || c = '\x27' || c = '\x60')
    let c3 := collapseWS c2
    let c4 := noiseLeadPats.foldl (fun acc p => subAnchoredOnce p acc) c3
    let c5 := subSearchOnce noiseTrailPat c4
    let kept := (pySplit c5).filter fun w => !(noiseWords.contains (lowerStr w))
    let c6 := collapseWS (pyStrip (joinSpace kept))
    if c6 = [] then [] else titleCase c6

/-- String-keyed extraction payload of an `IntentResult` (the source's
per-action dict keys, flattened into optional fields; an absent key is
`none`). -/
structure IData where
  text : Option Str := none
  habitName : Option Str := none
  date : Option Str := none
  oldName : Option Str := none
  newName : Option Str := none
  targetPage : Option Str := none
  originalText : Option Str := none
deriving DecidableEq, Repr

/-- `IntentParser._create_result` output: action tag, data, confidence (in
hundredths), and the wall-clock timestamp string (passed in as `nowIso`). -/
structure IntentResult where
  action : Act
  data : IData
  confidence : Nat
  timestamp : Str
deriving DecidableEq, Repr

/-- `IntentParser._create_result`. -/
def createResult (a : Act) (d : IData) (conf : Nat) (nowIso : Str) : IntentResult :=
  ⟨a, d, conf, nowIso⟩

/-- Group `i` of a match, as consumed by the source (`match.group(i)`; every
group the source reads is in a mandatory position of its pattern). -/
def mGroup (cp : Caps) (i : Nat) : Str := (capGet cp i).getD []

/-- The `navigate_*` page names (`action.replace('navigate_', '')`). -/
def navTarget (a : Act) : Str :=
  match a with
  | .navigateHome => ("home").toList
  | .navigateHabits => ("habits").toList
  | .navigateAnalytics => ("analytics").toList
  | .navigateChat => ("chat").toList
  | .navigateSettings => ("settings").toList
  | _ => []

/-- `IntentParser._extract_habit_details`: build the `IntentResult` for a
matched pattern; `none` means the extraction rejected the match and the
scan continues with the next pattern. -/
def extractHabitDetails (today : CalDate) (nowIso : Str) (act : Act)
    (cp : Caps) (ngroups : Nat) (originalText : Str) : Option IntentResult :=
  match act with
  | .addHabit =>
    let hn := cleanHabitName (mGroup cp 1)
    if hn ≠ [] ∧ hn.length > 1 then
      some (createResult .addHabit { habitName := some hn, originalText := some originalText } 85 nowIso)
    else none
  | .completeHabit =>
    let hn := cleanHabitName (mGroup cp 1)
    if hn ≠ [] ∧ hn.length > 1 then
      some (createResult .completeHabit
        { habitName := some hn, date := none, originalText := some originalText } 85 nowIso)
    else none
  | .completeHabitDate =>
    let hn := cleanHabitName (mGroup cp 1)
    let dateStr : Option Str := if ngroups > 1 then some (pyStrip (mGroup cp 2)) else none
    let parsed : Option Str :=
      match dateStr with
      | some s => if s ≠ [] then parseDate today s else none
      | none => none
    if hn ≠ [] ∧ hn.length > 1 then
      some (createResult .completeHabit
        { habitName := some hn, date := parsed, originalText := some originalText } 80 nowIso)
    else none
  | .editHabit =>
    if ngroups ≥ 2 then
      let oldN := cleanHabitName (mGroup cp 1)
      let newN := cleanHabitName (mGroup cp 2)
      if oldN ≠ [] ∧ newN ≠ [] then
        some (createResult .editHabit
          { oldName := some oldN, newName := some newN, originalText := some originalText } 80 nowIso)
      else none
    else
      let hn := cleanHabitName (mGroup cp 1)
      if hn ≠ [] then
        some (createResult .editHabit
          { habitName := some hn, originalText := some originalText } 70 nowIso)
      else none
  | .deleteHabit =>
    let hn := cleanHabitName (mGroup cp 1)
    if hn ≠ [] ∧ hn.length > 1 then
      some (createResult .deleteHabit
        { habitName := some hn, originalText := some originalText } 85 nowIso)
    else none
  | .showHabits =>
    some (createResult .showHabits { originalText := some originalText } 90 nowIso)
  | .habitStatus =>
    let hn := cleanHabitName (mGroup cp 1)
    if hn ≠ [] ∧ hn.length > 1 then
      some (createResult .habitStatus
        { habitName := some hn, originalText := some originalText } 80 nowIso)
    else none
  | .navigateHome | .navigateHabits | .navigateAnalytics | .navigateChat | .navigateSettings =>
    some (createResult act
      { targetPage := some (navTarget act), originalText := some originalText } 90 nowIso)
  | .logout | .viewAccount =>
    some (createResult act { originalText := some originalText } 90 nowIso)
  | .refreshPage | .clearData =>
    some (createResult act { originalText := some originalText } 85 nowIso)
  | .showHelp | .appInfo | .showToday | .showCalendar =>
    some (createResult act { originalText := some originalText } 90 nowIso)
  | _ => none

/-- `IntentParser._check_habit_actions`: scan the pattern table in order;
the first pattern whose search matches and whose extraction succeeds wins;
otherwise `unknown` with confidence 0. -/
def checkHabitActions (today : CalDate) (nowIso : Str) (text textLower : Str) : IntentResult :=
  match firstSome actionTable (fun entry =>
    firstSome entry.2 (fun pat =>
      match reSearchCaps pat textLower with
      | some cp => extractHabitDetails today nowIso entry.1 cp (maxGrp pat) text
      | none => none)) with
  | some r => r
  | none => createResult .unknown {} 0 nowIso

/-- `IntentParser.parse_intent`: strip, reject empty input as `unknown`,
short-circuit conversational cues, then scan action patterns, then habit
keywords, defaulting to `conversation`.  The embedding is a total function:
the source's documented never-throws behaviour corresponds to totality
here. -/
def parseIntent (today : CalDate) (nowIso : Str) (input : Str) : IntentResult :=
  let text := pyStrip input
  let textLower := lowerStr text
  if text = [] then createResult .unknown {} 0 nowIso
  else if isConversational textLower then
    createResult .conversation { text := some text } 90 nowIso
  else
    let habitResult := checkHabitActions today nowIso text textLower
    if habitResult.confidence > 50 then habitResult
    else if containsHabitKeywords textLower then
      createResult .habitConversation { text := some text } 60 nowIso
    else createResult .conversation { text := some text } 70 nowIso

/-- A row of the `habits` table (`id`, `user_id`, `name`, `color`,
`created_at`); list order models rowid order, which is insertion order. -/
structure Habit where
  hid : Nat
  userId : Nat
  name : Str
  color : Str
  createdAt : Str
deriving DecidableEq, Repr

/-- A row of the `habit_entries` table. -/
structure Entry where
  userId : Nat
  habitId : Nat
  date : Str
  completed : Bool
deriving DecidableEq, Repr

/-- The SQLite store visible to `HabitAutomationSystem`: habit rows, entry
rows, and the next AUTOINCREMENT id. -/
structure Store where
  habits : List Habit
  entries : List Entry
  nextId : Nat
deriving DecidableEq, Repr

/-- User-facing message templates of `habit_automation.py` and
`voice_command_handler.py`, one constructor per f-string template with its
interpolated values as arguments. -/
inductive Msg where
  | unknownHabitAction
  | invalidHabitName
  | alreadyHaveHabit (name : Str)
  | addedHabit (name : Str)
  | completeWhichHabit
  | habitNotFoundCreate (name : Str)
  | alreadyCompleted (name dateStr : Str)
  | markedComplete (name dateStr : Str)
  | editWhatChange (name : Str)
  | editNeedDetails
  | renameNeedBoth
  | renameNotFound (old : Str)
  | renameExists (newName : Str)
  | renamedHabit (old newName : Str)
  | deleteWhichHabit
  | deleteNotFound (name : Str)
  | deletedHabit (name : Str)
  | noHabitsYet
  | habitList (names completedToday : List Str)
  | statusWhichHabit
  | statusNotFound (name : Str)
  | statusReport (name : Str) (completedDays totalDays streak : Nat) (completedToday : Bool)
  | navigatingTo (page : Str)
  | loggingOut
  | openingAccount
  | refreshingPage
  | clearDataRefused
  | helpText
  | appInfoText
  | showTodayText
  | showCalendarText
  | unknownCommand (a : Act)
deriving DecidableEq, Repr

/-- Structured `data` payload of an action outcome (the source's result
dict keys, flattened; absent keys are `none`/`false`). -/
structure OData where
  habitName : Option Str := none
  alreadyExists : Bool := false
  habitId : Option Nat := none
  created : Bool := false
  date : Option Str := none
  alreadyCompleted : Bool := false
  completed : Bool := false
  notFound : Bool := false
  oldName : Option Str := none
  newName : Option Str := none
  nameExists : Bool := false
  renamed : Bool := false
  deleted : Bool := false
  editRequest : Bool := false
  empty : Bool := false
  habitNames : Option (List Str) := none
  completedTodayList : Option (List Str) := none
  totalCount : Option Nat := none
  route : Option Str := none
  page : Option Str := none
  helpShown : Bool := false
  infoShown : Bool := false
  completedDays : Option Nat := none
  totalDays : Option Nat := none
  currentStreak : Option Nat := none
  completedToday : Option Bool := none
deriving DecidableEq, Repr

/-- A frontend directive `{type, navigate}`. -/
structure FAction where
  ftype : Str
  navigate : Option Str
deriving DecidableEq, Repr

/-- An action outcome (`success`, `action`, `message`, `data`, optional
frontend directive). -/
structure Outcome where
  success : Bool
  action : Act
  message : Msg
  data : OData := {}
  frontendAction : Option FAction := none
deriving DecidableEq, Repr

/-- `SELECT ... WHERE name = ? AND user_id = ?` with `fetchone`: the habits
table's `name` column uses SQLite's default BINARY collation, so `=` is
exact (case-sensitive) string equality; `fetchone` takes the first row in
rowid order. -/
def findExact (habits : List Habit) (userId : Nat) (name : Str) : Option Habit :=
  habits.find? fun h => h.name = name ∧ h.userId = userId

/-- `SELECT ... WHERE LOWER(name) = LOWER(?) AND user_id = ?` with
`fetchone`. -/
def findCI (habits : List Habit) (userId : Nat) (name : Str) : Option Habit :=
  habits.find? fun h => lowerStr h.name = lowerStr name ∧ h.userId = userId

/-- Distinct word overlap: `len(set(a.split()) & set(b.split()))`. -/
def wordOverlap (a b : Str) : Nat :=
  ((pySplit a).dedup.filter fun w => (pySplit b).contains w).length

/-- The strict-improvement fold of the word-overlap loop: keeps the first
candidate attaining each new best score (`overlap > best_score`). -/
def bestOverlapGo (queryLower : Str) (l : List Habit) (best : Option (Nat × Str))
    (bestScore : Nat) : Option (Nat × Str) :=
  match l with
  | [] => best
  | h :: rest =>
    let ov := wordOverlap queryLower (lowerStr h.name)
    if ov > bestScore then bestOverlapGo queryLower rest (some (h.hid, h.name)) ov
    else bestOverlapGo queryLower rest best bestScore

/-- `HabitAutomationSystem._find_habit_by_name`: exact match, then
case-insensitive match, then substring containment either way, then best
distinct-word overlap (strict improvement, so first seen wins ties), else
nothing. -/
def findHabitByName (habits : List Habit) (habitName : Str) (userId : Nat) :
    Option (Nat × Str) :=
  match findExact habits userId habitName with
  | some h => some (h.hid, h.name)
  | none =>
    match findCI habits userId habitName with
    | some h => some (h.hid, h.name)
    | none =>
      let allHabits := habits.filter fun h => h.userId = userId
      let nameLower := lowerStr habitName
      match allHabits.find? (fun h =>
          containsSub (lowerStr h.name) nameLower || containsSub nameLower (lowerStr h.name)) with
      | some h => some (h.hid, h.name)
      | none =>
        match bestOverlapGo nameLower allHabits none 0 with
        | some b => some b
        | none => none

/-- Strict lexicographic order on strings (Python `<` on `str`, SQLite
BINARY ordering, restricted to ASCII). -/
def strLtB (a b : Str) : Bool :=
  match a, b with
  | [], [] => false
  | [], _ :: _ => true
  | _ :: _, [] => false
  | x :: xs, y :: ys => if x < y then true else if y < x then false else strLtB xs ys

/-- Stable insertion keeping descending key order: the element goes in
front of the first position whose key is not strictly greater. -/
def insertDesc (x : Str × Bool) (l : List (Str × Bool)) : List (Str × Bool) :=
  match l with
  | [] => [x]
  | y :: rest => if strLtB x.1 y.1 then y :: insertDesc x rest else x :: y :: rest

/-- `sorted(entries, key=lambda x: x[0], reverse=True)`: stable descending
sort by date string. -/
def sortDesc (l : List (Str × Bool)) : List (Str × Bool) :=
  match l with
  | [] => []
  | x :: rest => insertDesc x (sortDesc rest)

/-- The scan of `_calculate_current_streak`: count leading completed
entries, stopping at the first non-completed one. -/
def countLeading (l : List (Str × Bool)) : Nat :=
  match l with
  | [] => 0
  | e :: rest => if e.2 then 1 + countLeading rest else 0

/-- `HabitAutomationSystem._calculate_current_streak`. -/
def calculateCurrentStreak (entries : List (Str × Bool)) : Nat :=
  if entries = [] then 0
  else countLeading (sortDesc entries)

/-- Ambient time for one request: the current calendar day
(`date.today()`) and the current timestamp string (`datetime.now()`). -/
structure Clock where
  today : CalDate
  nowIso : Str
deriving DecidableEq, Repr

/-- `date.today().isoformat()`. -/
def Clock.todayIso (clk : Clock) : Str := isoDate clk.today

/-- SQLite `date('now', '-30 days')`. -/
def Clock.thirtyAgoIso (clk : Clock) : Str := isoDate (subDays clk.today 30)

/-- `HabitAutomationSystem._add_habit`: soft-fail on an empty or too-short
name or an exact duplicate (BINARY `=`), otherwise insert with the default
color. -/
def addHabitOp (d : IData) (userId : Nat) (nowIso : Str) (s : Store) : Outcome × Store :=
  let habitName := pyStrip (d.habitName.getD [])
  if habitName = [] ∨ habitName.length < 2 then
    ({ success := false, action := .addHabit, message := .invalidHabitName }, s)
  else
    match findExact s.habits userId habitName with
    | some _ =>
      ({ success := false, action := .addHabit, message := .alreadyHaveHabit habitName,
         data := { habitName := some habitName, alreadyExists := true } }, s)
    | none =>
      let h : Habit := ⟨s.nextId, userId, habitName, ("#2ecc40").toList, nowIso⟩
      ({ success := true, action := .addHabit, message := .addedHabit habitName,
         data := { habitName := some habitName, habitId := some s.nextId, created := true } },
       { s with habits := s.habits ++ [h], nextId := s.nextId + 1 })

/-- The completion date used by `_complete_habit`: the extracted date, or
today when it is absent or Python-falsy empty. -/
def resolveTargetDate (d : IData) (todayIso : Str) : Str :=
  match d.date with
  | none => todayIso
  | some ds => if ds = [] then todayIso else ds

/-- `HabitAutomationSystem._complete_habit` (continued from
`resolveTargetDate`, which models `if not target_date: target_date =
date.today().isoformat()`, covering both an absent date and Python's falsy
empty string). -/
def completeHabitOp (d : IData) (userId : Nat) (todayIso : Str) (s : Store) :
    Outcome × Store :=
  let habitName := pyStrip (d.habitName.getD [])
  if habitName = [] then
    ({ success := false, action := .completeHabit, message := .completeWhichHabit }, s)
  else
    let targetDate := resolveTargetDate d todayIso
    match findHabitByName s.habits habitName userId with
    | none =>
      ({ success := false, action := .completeHabit, message := .habitNotFoundCreate habitName,
         data := { habitName := some habitName, notFound := true } }, s)
    | some (hid, actualName) =>
      match s.entries.find? (fun e => e.userId = userId ∧ e.habitId = hid ∧ e.date = targetDate) with
      | some e =>
        if e.completed then
          let dateStr := if targetDate = todayIso then ("today").toList else targetDate
          ({ success := false, action := .completeHabit,
             message := .alreadyCompleted actualName dateStr,
             data := { habitName := some actualName, date := some targetDate,
                       alreadyCompleted := true } }, s)
        else
          let entries2 := s.entries.map fun e2 =>
            if e2.userId = userId ∧ e2.habitId = hid ∧ e2.date = targetDate then
              { e2 with completed := true }
            else e2
          let dateStr := if targetDate = todayIso then ("today").toList
            else ("on ").toList ++ targetDate
          ({ success := true, action := .completeHabit,
             message := .markedComplete actualName dateStr,
             data := { habitName := some actualName, date := some targetDate,
                       completed := true } }, { s with entries := entries2 })
      | none =>
        let dateStr := if targetDate = todayIso then ("today").toList
          else ("on ").toList ++ targetDate
        ({ success := true, action := .completeHabit,
           message := .markedComplete actualName dateStr,
           data := { habitName := some actualName, date := some targetDate,
                     completed := true } },
         { s with entries := s.entries ++ [⟨userId, hid, targetDate, true⟩] })

/-- `HabitAutomationSystem._rename_habit`: resolve the old name fuzzily,
reject an exact-name collision with a different habit (BINARY `=`,
excluding the habit itself), otherwise update the name in place. -/
def renameHabitOp (oldName newName : Str) (userId : Nat) (s : Store) : Outcome × Store :=
  if oldName = [] ∨ newName = [] then
    ({ success := false, action := .editHabit, message := .renameNeedBoth }, s)
  else
    match findHabitByName s.habits oldName userId with
    | none =>
      ({ success := false, action := .editHabit, message := .renameNotFound oldName,
         data := { oldName := some oldName, notFound := true } }, s)
    | some (hid, actualName) =>
      match s.habits.find? (fun h => h.name = newName ∧ h.userId = userId ∧ h.hid ≠ hid) with
      | some _ =>
        ({ success := false, action := .editHabit, message := .renameExists newName,
           data := { newName := some newName, nameExists := true } }, s)
      | none =>
        let habits2 := s.habits.map fun h => if h.hid = hid then { h with name := newName } else h
        ({ success := true, action := .editHabit, message := .renamedHabit actualName newName,
           data := { oldName := some actualName, newName := some newName, renamed := true } },
         { s with habits := habits2 })

/-- `HabitAutomationSystem._edit_habit`: with a new name present it is a
rename; with only a habit name it is a successful "what should change"
prompt; otherwise a failure. -/
def editHabitOp (d : IData) (userId : Nat) (s : Store) : Outcome × Store :=
  let oldName := pyStrip (d.oldName.getD [])
  let newName := pyStrip (d.newName.getD [])
  let habitName := pyStrip (d.habitName.getD [])
  if newName ≠ [] then renameHabitOp oldName newName userId s
  else if habitName ≠ [] then
    ({ success := true, action := .editHabit, message := .editWhatChange habitName,
       data := { habitName := some habitName, editRequest := true } }, s)
  else
    ({ success := false, action := .editHabit, message := .editNeedDetails }, s)

/-- `HabitAutomationSystem._delete_habit`: resolve fuzzily, then delete the
habit's entries (by habit id) and the habit row. -/
def deleteHabitOp (d : IData) (userId : Nat) (s : Store) : Outcome × Store :=
  let habitName := pyStrip (d.habitName.getD [])
  if habitName = [] then
    ({ success := false, action := .deleteHabit, message := .deleteWhichHabit }, s)
  else
    match findHabitByName s.habits habitName userId with
    | none =>
      ({ success := false, action := .deleteHabit, message := .deleteNotFound habitName,
         data := { habitName := some habitName, notFound := true } }, s)
    | some (hid, actualName) =>
      ({ success := true, action := .deleteHabit, message := .deletedHabit actualName,
         data := { habitName := some actualName, deleted := true } },
       { s with entries := s.entries.filter fun e => e.habitId ≠ hid,
                habits := s.habits.filter fun h => h.hid ≠ hid })

/-- Stable ascending insertion by habit name (SQL `ORDER BY name`). -/
def insertAsc (x : Habit) (l : List Habit) : List Habit :=
  match l with
  | [] => [x]
  | y :: rest => if strLtB y.name x.name then y :: insertAsc x rest else x :: y :: rest

/-- `ORDER BY name ASC` on habit rows. -/
def sortByName (l : List Habit) : List Habit :=
  match l with
  | [] => []
  | x :: rest => insertAsc x (sortByName rest)

/-- `HabitAutomationSystem._show_habits`: list the user's habits sorted by
name with today's completion flags; the empty set is a successful outcome
with an `empty` marker.  (The per-habit entry lookup has no user filter in
the source; the model matches.) -/
def showHabitsOp (userId : Nat) (todayIso : Str) (s : Store) : Outcome × Store :=
  let rows := sortByName (s.habits.filter fun h => h.userId = userId)
  if rows = [] then
    ({ success := true, action := .showHabits, message := .noHabitsYet,
       data := { habitNames := some [], empty := true } }, s)
  else
    let flagged := rows.map fun h =>
      (h.name, (s.entries.find? fun e => e.habitId = h.hid ∧ e.date = todayIso
        ).elim false (fun e => e.completed))
    let names := flagged.map (·.1)
    let doneToday := (flagged.filter (·.2)).map (·.1)
    ({ success := true, action := .showHabits, message := .habitList names doneToday,
       data := { habitNames := some names, completedTodayList := some doneToday,
                 totalCount := some names.length } }, s)

/-- `HabitAutomationSystem._get_habit_status`: resolve fuzzily, collect the
trailing-30-day entries in descending date order, and report counts,
today's flag and the current streak.  (The entry query has no user filter
in the source; the model matches.) -/
def getHabitStatusOp (d : IData) (userId : Nat) (todayIso thirtyAgoIso : Str) (s : Store) :
    Outcome × Store :=
  let habitName := pyStrip (d.habitName.getD [])
  if habitName = [] then
    ({ success := false, action := .habitStatus, message := .statusWhichHabit }, s)
  else
    match findHabitByName s.habits habitName userId with
    | none =>
      ({ success := false, action := .habitStatus, message := .statusNotFound habitName,
         data := { habitName := some habitName, notFound := true } }, s)
    | some (hid, actualName) =>
      let rows := sortDesc (((s.entries.filter fun e =>
        e.habitId = hid ∧ !(strLtB e.date thirtyAgoIso))).map fun e => (e.date, e.completed))
      let totalDays := rows.length
      let completedDays := (rows.filter (·.2)).length
      let completedToday := rows.any fun r => r.1 = todayIso ∧ r.2
      let streak := calculateCurrentStreak rows
      ({ success := true, action := .habitStatus,
         message := .statusReport actualName completedDays totalDays streak completedToday,
         data := { habitName := some actualName, completedDays := some completedDays,
                   totalDays := some totalDays, currentStreak := some streak,
                   completedToday := some completedToday } }, s)

/-- `HabitAutomationSystem.execute_habit_action`: route on the action tag;
anything else is the `unknown` failure.  SQLite-error branches are
unreachable in the pure store model and are not represented. -/
def executeHabitAction (intent : IntentResult) (userId : Nat) (clk : Clock) (s : Store) :
    Outcome × Store :=
  match intent.action with
  | .addHabit => addHabitOp intent.data userId clk.nowIso s
  | .completeHabit => completeHabitOp intent.data userId clk.todayIso s
  | .editHabit => editHabitOp intent.data userId s
  | .deleteHabit => deleteHabitOp intent.data userId s
  | .showHabits => showHabitsOp userId clk.todayIso s
  | .habitStatus => getHabitStatusOp intent.data userId clk.todayIso clk.thirtyAgoIso s
  | _ => ({ success := false, action := .unknown, message := .unknownHabitAction }, s)

/-- `VoiceCommandHandler._handle_navigation`'s `page_mapping` with its `'/'`
default. -/
def pageRoute (target : Str) : Str :=
  if target = ("home").toList then ("/").toList
  else if target = ("habits").toList then ("/habits").toList
  else if target = ("analytics").toList then ("/analytics").toList
  else if target = ("chat").toList then ("/chat").toList
  else if target = ("settings").toList then ("/settings").toList
  else ("/").toList

/-- `VoiceCommandHandler.execute_command`: habit actions are delegated to
the automation system (gaining a refresh directive on success); the other
commands produce fixed outcomes; an unhandled tag is the polite failure. -/
def executeVoiceCommand (intent : IntentResult) (userId : Nat) (clk : Clock) (s : Store) :
    Outcome × Store :=
  match intent.action with
  | .addHabit | .completeHabit | .editHabit | .deleteHabit | .showHabits | .habitStatus =>
    let (o, s2) := executeHabitAction intent userId clk s
    if o.success then
      ({ o with frontendAction := some ⟨("refresh_habits").toList, none⟩ }, s2)
    else (o, s2)
  | .navigateHome | .navigateHabits | .navigateAnalytics | .navigateChat | .navigateSettings =>
    let target := (intent.data.targetPage).getD []
    let route := pageRoute target
    ({ success := true, action := intent.action, message := .navigatingTo (titleCase target),
       data := { route := some route, page := some target },
       frontendAction := some ⟨("navigate").toList, some route⟩ }, s)
  | .logout =>
    ({ success := true, action := .logout, message := .loggingOut,
       frontendAction := some ⟨("logout").toList, some (("/login").toList)⟩ }, s)
  | .viewAccount =>
    ({ success := true, action := .viewAccount, message := .openingAccount,
       frontendAction := some ⟨("navigate").toList, some (("/account").toList)⟩ }, s)
  | .refreshPage =>
    ({ success := true, action := .refreshPage, message := .refreshingPage,
       frontendAction := some ⟨("refresh").toList, none⟩ }, s)
  | .clearData =>
    ({ success := false, action := .clearData, message := .clearDataRefused,
       frontendAction := some ⟨("navigate").toList, some (("/settings").toList)⟩ }, s)
  | .showHelp =>
    ({ success := true, action := .showHelp, message := .helpText,
       data := { helpShown := true } }, s)
  | .appInfo =>
    ({ success := true, action := .appInfo, message := .appInfoText,
       data := { infoShown := true } }, s)
  | .showToday =>
    ({ success := true, action := .showToday, message := .showTodayText,
       data := { date := some clk.todayIso },
       frontendAction := some ⟨("navigate").toList, some (("/habits").toList)⟩ }, s)
  | .showCalendar =>
    ({ success := true, action := .showCalendar, message := .showCalendarText,
       frontendAction := some ⟨("navigate").toList, some (("/habits").toList)⟩ }, s)
  | a =>
    ({ success := false, action := a, message := .unknownCommand a }, s)

/-- The action tags the unified pipeline dispatches (source list at the
branch `if action in [...] and confidence > 0.6`). -/
def dispatchActions : List Act :=
  [.addHabit, .completeHabit, .editHabit, .deleteHabit, .showHabits, .habitStatus,
   .navigateHome, .navigateHabits, .navigateAnalytics, .navigateChat, .navigateSettings,
   .logout, .viewAccount, .refreshPage, .clearData, .showHelp, .appInfo,
   .showToday, .showCalendar]

/-- The mutating habit actions named by the pipeline's (effect-free)
low-confidence validation. -/
def mutatingHabitActions : List Act :=
  [.addHabit, .completeHabit, .editHabit, .deleteHabit]

/-- Items reported by `detect_and_create_items` (names of habits/tasks it
opportunistically created). -/
structure Detected where
  habits : List Str
  tasks : List Str
deriving DecidableEq, Repr

/-- A pipeline reply: the dispatched outcome's message, a conversational
reply (the fallback text, prefixed by acknowledgment sentences when
implicit creations happened), or the generic apologetic error reply. -/
inductive Reply where
  | ofMsg (m : Msg)
  | conv (habitsCreated tasksCreated : List Str) (ai : Str)
  | genericError
deriving DecidableEq, Repr

/-- `processing_type` of a pipeline response. -/
inductive PType where
  | act (a : Act)
  | error
deriving DecidableEq, Repr

/-- What `process_unified_message` returns (plus bookkeeping the proofs
read): the reply, the `action_taken` flag, the dispatched outcome (when
any), the frontend directive, the processing type, the list of
`store_chat_message` persistence attempts made (message/reply pairs;
`store_chat_message` swallows its own errors, so an attempt is recorded
regardless of storage success), and whether the dispatcher was invoked. -/
structure PipelineResult where
  reply : Reply
  actionTaken : Bool
  habitAction : Option Outcome
  frontendAction : Option FAction
  processingType : PType
  persisted : List (Str × Reply)
  dispatchInvoked : Bool
deriving DecidableEq, Repr

/-- The generic-exception response of `process_unified_message` (reply
"Sorry, I encountered an error...", `action_taken=false`, processing type
`error`; nothing is persisted on this path). -/
def errorPipelineResult : PipelineResult :=
  { reply := .genericError, actionTaken := false, habitAction := none,
    frontendAction := none, processingType := .error, persisted := [],
    dispatchInvoked := false }

/-- `process_unified_message`.  The classifier and dispatcher are the
embeddings above; the external collaborators are parameters: `aiCtx` is
`get_ai_reply_with_context`, `aiFb` is the `get_ai_reply` retry used when
the former raises, and `detect` is `detect_and_create_items` (which may
create habits, hence returns a store; a raising collaborator is an
`Except.error`, routed to the source's outer `except`).  The source's
low-confidence check for mutating habit actions only logs — it changes
nothing — so it has no counterpart here. -/
def processUnifiedMessage (msg : Str) (userId : Nat) (clk : Clock) (s : Store)
    (aiCtx aiFb : Except Unit Str)
    (detect : Store → Except Unit (Option Detected × Store)) :
    PipelineResult × Store :=
  let intent := parseIntent clk.today clk.nowIso msg
  if dispatchActions.contains intent.action ∧ intent.confidence > 60 then
    let (voiceResult, s2) := executeVoiceCommand intent userId clk s
    let reply := Reply.ofMsg voiceResult.message
    ({ reply := reply, actionTaken := true, habitAction := some voiceResult,
       frontendAction := voiceResult.frontendAction,
       processingType := .act intent.action,
       persisted := if voiceResult.success then [(msg, reply)] else [],
       dispatchInvoked := true }, s2)
  else
    match (match aiCtx with | .ok r => Except.ok r | .error _ => aiFb) with
    | .error _ => (errorPipelineResult, s)
    | .ok ai =>
      match detect s with
      | .error _ => (errorPipelineResult, s)
      | .ok (det, s2) =>
        let hc := match det with | some dd => dd.habits | none => []
        let tc := match det with | some dd => dd.tasks | none => []
        let reply := Reply.conv hc tc ai
        ({ reply := reply, actionTaken := hc ≠ [] || tc ≠ [], habitAction := none,
           frontendAction := none, processingType := .act intent.action,
           persisted := [(msg, reply)], dispatchInvoked := false }, s2)

/-- Outcome of the transcript checks guarding the voice endpoints before
any intent classification. -/
inductive VoiceDecision where
  | rejectNoSpeech
  | rejectTooShort (transcript : Str)
  | rejectUnclear
  | classify (transcript : Str)
deriving DecidableEq, Repr

/-- The `/api/voice/audio` endpoint's transcript gate
(`process_voice_audio`): reject only an empty stripped transcript; the
transcriber confidence is read into a local and reported, never tested. -/
def processVoiceAudioGate (text : Str) (confidence : Nat) : VoiceDecision :=
  let transcript := pyStrip text
  if transcript = [] then .rejectNoSpeech else .classify transcript

/-- The `/api/voice` endpoint's transcript gate (`handle_voice`): reject a
stripped transcript shorter than 3 characters with the dedicated "too
short to understand" reply; the confidence is likewise never tested. -/
def handleVoiceGate (text : Str) (confidence : Nat) : VoiceDecision :=
  let transcript := pyStrip text
  if transcript.length < 3 then .rejectTooShort transcript
  else if transcript ≠ [] then .classify transcript
  else .rejectUnclear

/-- The specification's streak characterization: sort entries by date
descending and count the leading run of completed ones. -/
def currentStreakSpec (entries : List (Str × Bool)) : Nat :=
  ((sortDesc entries).takeWhile fun e => e.2).length

/-- Maximum word-overlap score of a candidate list against a query. -/
def maxOverlapScore (queryLower : Str) (l : List Habit) : Nat :=
  (l.map fun h => wordOverlap queryLower (lowerStr h.name)).foldr max 0

/-- The specification's resolver: exact match, case-insensitive match,
substring containment either way, then the first candidate attaining the
maximum word-overlap score when it is positive, else nothing. -/
def resolveSpec (habits : List Habit) (habitName : Str) (userId : Nat) :
    Option (Nat × Str) :=
  match findExact habits userId habitName with
  | some h => some (h.hid, h.name)
  | none =>
    match findCI habits userId habitName with
    | some h => some (h.hid, h.name)
    | none =>
      let allHabits := habits.filter fun h => h.userId = userId
      let nameLower := lowerStr habitName
      match allHabits.find? (fun h =>
          containsSub (lowerStr h.name) nameLower || containsSub nameLower (lowerStr h.name)) with
      | some h => some (h.hid, h.name)
      | none =>
        let best := maxOverlapScore nameLower allHabits
        if best > 0 then
          (allHabits.find? fun h => wordOverlap nameLower (lowerStr h.name) = best
            ).map fun h => (h.hid, h.name)
        else none

/-- Trailing part of the `\?.*$` cue: no newline may follow, except a
single final one (the positions where `.*$` can complete a match). -/
def tailOk (s : Str) : Bool :=
  match s with
  | [] => true
  | c :: rest => if c = '\n' then rest = ([] : Str) else tailOk rest

/-- Declarative reading of the `\?.*$` conversational cue: some `?` in the
text is followed only by non-newline characters (up to one final
newline) — i.e. a `?` on the final line. -/
def qmarkFinalLine (s : Str) : Bool :=
  match s with
  | [] => false
  | c :: rest => (c = '?' && tailOk rest) || qmarkFinalLine rest

/-- The keyword substrings of the last conversational pattern
(`weather|time|date|news|joke|story`). -/
def convKeywords : List Str :=
  [("weather").toList, ("time").toList, ("date").toList,
   ("news").toList, ("joke").toList, ("story").toList]

/-- True when the text contains one of the conversational keyword
substrings. -/
def convKeywordHit (t : Str) : Bool :=
  convKeywords.any fun k => containsSub t k

/-- Number of completed entries recorded for a user, habit and date. -/
def completedCount (s : Store) (userId hid : Nat) (date : Str) : Nat :=
  (s.entries.filter fun e =>
    e.userId = userId ∧ e.habitId = hid ∧ e.date = date ∧ e.completed).length

/-- Entry-table well-formedness guaranteed by the schema's
`UNIQUE(user_id, habit_id, date)` constraint: no two rows share a key. -/
def entriesKeyUnique (s : Store) : Prop :=
  s.entries.Pairwise fun a b =>
    ¬(a.userId = b.userId ∧ a.habitId = b.habitId ∧ a.date = b.date)

instance (s : Store) : Decidable (entriesKeyUnique s) := by
  unfold entriesKeyUnique
  infer_instance

theorem countLeading_eq_takeWhile (l : List (Str × Bool)) :
    countLeading l = (l.takeWhile fun e => e.2).length := by
  induction l with
  | nil => rfl
  | cons e rest ih =>
    by_cases he : e.2
    · simp [countLeading, List.takeWhile_cons, he, ih, Nat.add_comm]
    · simp [countLeading, List.takeWhile_cons, he]

/-- C5.  The computed current streak is exactly the specification's count:
sort the dated entries in descending date order and count the leading run
of completed ones, stopping at the first entry whose flag is false (dates
with no entry play no role).  On the spec's four-entry example
`[(today,true),(yesterday,true),(2d-ago,false),(3d-ago,true)]` the streak
is 2. -/
theorem C5_streak_matches_spec :
    (∀ entries : List (Str × Bool),
      calculateCurrentStreak entries = currentStreakSpec entries) ∧
    calculateCurrentStreak
      [(("2025-10-12").toList, true), (("2025-10-11").toList, true),
       (("2025-10-10").toList, false), (("2025-10-09").toList, true)] = 2 := by
  constructor
  · intro entries
    unfold calculateCurrentStreak currentStreakSpec
    split
    · rename_i he
      subst he
      rfl
    · exact countLeading_eq_takeWhile _
  · decide

theorem maxOverlapScore_cons (q : Str) (h : Habit) (rest : List Habit) :
    maxOverlapScore q (h :: rest) =
      max (wordOverlap q (lowerStr h.name)) (maxOverlapScore q rest) := by
  simp [maxOverlapScore]

theorem bestOverlapGo_spec (q : Str) (l : List Habit) :
    ∀ (acc : Option (Nat × Str)) (bs : Nat),
      bestOverlapGo q l acc bs =
        if bs < maxOverlapScore q l then
          (l.find? fun h => wordOverlap q (lowerStr h.name) = maxOverlapScore q l).map
            fun h => (h.hid, h.name)
        else acc := by
  induction l with
  | nil =>
    intro acc bs
    simp [bestOverlapGo, maxOverlapScore]
  | cons h rest ih =>
    intro acc bs
    rw [maxOverlapScore_cons]
    by_cases hv : bs < wordOverlap q (lowerStr h.name)
    · rw [show bestOverlapGo q (h :: rest) acc bs =
          bestOverlapGo q rest (some (h.hid, h.name)) (wordOverlap q (lowerStr h.name)) by
        simp [bestOverlapGo, hv]]
      rw [ih]
      by_cases hm : wordOverlap q (lowerStr h.name) < maxOverlapScore q rest
      · rw [if_pos hm, if_pos (by omega)]
        rw [Nat.max_eq_right (by omega)]
        rw [List.find?_cons_of_neg _ (by simp; omega)]
      · rw [if_neg hm, if_pos (by omega)]
        rw [Nat.max_eq_left (by omega)]
        rw [List.find?_cons_of_pos _ (by simp)]
        rfl
    · rw [show bestOverlapGo q (h :: rest) acc bs = bestOverlapGo q rest acc bs by
        simp [bestOverlapGo, hv]]
      rw [ih]
      by_cases hm : bs < maxOverlapScore q rest
      · rw [if_pos hm, if_pos (by omega)]
        rw [Nat.max_eq_right (by omega)]
        rw [List.find?_cons_of_neg _ (by simp; omega)]
      · rw [if_neg hm, if_neg (by omega)]

theorem findHabitByName_eq_resolveSpec (habits : List Habit) (q : Str) (u : Nat) :
    findHabitByName habits q u = resolveSpec habits q u := by
  unfold findHabitByName resolveSpec
  cases findExact habits u q with
  | some h => rfl
  | none =>
    cases findCI habits u q with
    | some h => rfl
    | none =>
      simp only
      cases hsub : (habits.filter fun h => h.userId = u).find? (fun h =>
          containsSub (lowerStr h.name) (lowerStr q) ||
            containsSub (lowerStr q) (lowerStr h.name)) with
      | some h => rfl
      | none =>
        rw [bestOverlapGo_spec]
        by_cases hm : 0 < maxOverlapScore (lowerStr q) (habits.filter fun h => h.userId = u)
        · rw [if_pos hm]
          cases (habits.filter fun h => h.userId = u).find? (fun h =>
              wordOverlap (lowerStr q) (lowerStr h.name) =
                maxOverlapScore (lowerStr q) (habits.filter fun h => h.userId = u)) with
          | some h => rfl
          | none => rfl
        · rw [if_neg hm]

/-- C6.  The fuzzy resolver agrees with the specification's staged
procedure (exact, then case-insensitive, then substring containment either
way, then maximum whitespace-token overlap with positive score and
first-seen tie-break, else nothing), and whenever it returns a habit, that
habit is one of the user's stored candidates — it never fabricates a
name. -/
theorem C6_resolver_staged_and_member (habits : List Habit) (q : Str) (u : Nat) :
    findHabitByName habits q u = resolveSpec habits q u ∧
    (∀ i n, findHabitByName habits q u = some (i, n) →
      ∃ h, h ∈ habits ∧ h.userId = u ∧ h.hid = i ∧ h.name = n) := by
  refine ⟨findHabitByName_eq_resolveSpec habits q u, ?_⟩
  intro i n hfind
  rw [findHabitByName_eq_resolveSpec] at hfind
  unfold resolveSpec at hfind
  cases hex : findExact habits u q with
  | some h =>
    simp only [hex, Option.some.injEq, Prod.mk.injEq] at hfind
    have hmem := List.mem_of_find?_eq_some hex
    have hp := List.find?_some hex
    simp only [decide_eq_true_eq] at hp
    exact ⟨h, hmem, hp.2, hfind.1, hfind.2⟩
  | none =>
    simp only [hex] at hfind
    cases hci : findCI habits u q with
    | some h =>
      simp only [hci, Option.some.injEq, Prod.mk.injEq] at hfind
      have hmem := List.mem_of_find?_eq_some hci
      have hp := List.find?_some hci
      simp only [decide_eq_true_eq] at hp
      exact ⟨h, hmem, hp.2, hfind.1, hfind.2⟩
    | none =>
      simp only [hci] at hfind
      cases hsub : (habits.filter fun h => h.userId = u).find? (fun h =>
          containsSub (lowerStr h.name) (lowerStr q) ||
            containsSub (lowerStr q) (lowerStr h.name)) with
      | some h =>
        simp only [hsub, Option.some.injEq, Prod.mk.injEq] at hfind
        have hmem := List.mem_of_find?_eq_some hsub
        rw [List.mem_filter] at hmem
        exact ⟨h, hmem.1, by simpa using hmem.2, hfind.1, hfind.2⟩
      | none =>
        simp only [hsub] at hfind
        by_cases hm : 0 < maxOverlapScore (lowerStr q) (habits.filter fun h => h.userId = u)
        · rw [if_pos hm] at hfind
          cases hov : (habits.filter fun h => h.userId = u).find? (fun h =>
              wordOverlap (lowerStr q) (lowerStr h.name) =
                maxOverlapScore (lowerStr q) (habits.filter fun h => h.userId = u)) with
          | some h =>
            simp only [hov, Option.map_some', Option.some.injEq, Prod.mk.injEq] at hfind
            have hmem := List.mem_of_find?_eq_some hov
            rw [List.mem_filter] at hmem
            exact ⟨h, hmem.1, by simpa using hmem.2, hfind.1, hfind.2⟩
          | none =>
            rw [hov] at hfind
            exact Option.noConfusion hfind
        · rw [if_neg hm] at hfind
          exact Option.noConfusion hfind

/-- Witness for C6: a containment-stage resolution returning a stored
candidate ("drink water" resolves to the stored "Drink Water"). -/
theorem C6_witness :
    ∃ h, h ∈ [Habit.mk 7 1 (("Drink Water").toList) (("#2ecc40").toList) []] ∧
      h.userId = 1 ∧ h.hid = 7 ∧ h.name = ("Drink Water").toList :=
  (C6_resolver_staged_and_member
    [Habit.mk 7 1 (("Drink Water").toList) (("#2ecc40").toList) []]
    (("drink water").toList) 1).2 7 (("Drink Water").toList) (by decide)

/-- C9 counterexample.  The claim fails on the code: the `/api/voice/audio`
entry path forwards the 2-character transcript "hi" to intent
classification instead of refusing it, and neither voice path consults the
transcriber confidence — `/api/voice` classifies a transcript flagged with
confidence 0.01 (represented as 1 in hundredths). -/
theorem C9_counterexample :
    processVoiceAudioGate (("hi").toList) 95 = .classify (("hi").toList) ∧
    (pyStrip (("hi").toList)).length < 3 ∧
    handleVoiceGate (("add a habit to drink water").toList) 1 =
      .classify (("add a habit to drink water").toList) := by
  decide

/-- C9 as amended.  Only the `/api/voice` path (`handle_voice`) refuses
transcripts shorter than 3 characters, with the dedicated too-short
outcome; the `/api/voice/audio` path (`process_voice_audio`) classifies
every non-empty stripped transcript, refusing only empty ones; and both
gates ignore the transcriber confidence entirely. -/
theorem C9_voice_gates (t : Str) (c : Nat) :
    ((pyStrip t).length < 3 → handleVoiceGate t c = .rejectTooShort (pyStrip t)) ∧
    (processVoiceAudioGate t c = .classify (pyStrip t) ↔ pyStrip t ≠ []) ∧
    (∀ c2, handleVoiceGate t c = handleVoiceGate t c2 ∧
      processVoiceAudioGate t c = processVoiceAudioGate t c2) := by
  refine ⟨?_, ?_, ?_⟩
  · intro hlen
    unfold handleVoiceGate
    simp [hlen]
  · unfold processVoiceAudioGate
    by_cases he : pyStrip t = []
    · simp [he]
    · simp [he]
  · intro c2
    exact ⟨rfl, rfl⟩

/-- Witness for C9's amended statement, at the transcript "hi" with
confidence 0.95: the `/api/voice` gate refuses it as too short, and the
audio gate classifies it (it is non-empty). -/
theorem C9_witness :
    handleVoiceGate (("hi").toList) 95 = .rejectTooShort (pyStrip (("hi").toList)) ∧
    processVoiceAudioGate (("hi").toList) 95 = .classify (pyStrip (("hi").toList)) :=
  ⟨(C9_voice_gates (("hi").toList) 95).1 (by decide),
   (C9_voice_gates (("hi").toList) 95).2.1.mpr (by decide)⟩

/-- C2 counterexample.  Habit-name uniqueness is not case-insensitive on
the code: with an empty store, creating "Water" and then "water" for the
same user both succeed (the duplicate check uses SQLite BINARY `=`), and
two habits end up stored — the second call is neither a failure nor
non-mutating. -/
theorem C2_counterexample :
    ((addHabitOp { habitName := some (("Water").toList) } 1 [] ⟨[], [], 1⟩).1.success = true) ∧
    ((addHabitOp { habitName := some (("water").toList) } 1 []
        (addHabitOp { habitName := some (("Water").toList) } 1 [] ⟨[], [], 1⟩).2).1.success = true) ∧
    ((addHabitOp { habitName := some (("water").toList) } 1 []
        (addHabitOp { habitName := some (("Water").toList) } 1 [] ⟨[], [], 1⟩).2).2.habits.length = 2) := by
  decide

theorem find?_append_chars {α : Type} (p : α → Bool) (l1 l2 : List α) :
    (l1 ++ l2).find? p = ((l1.find? p).or (l2.find? p)) := by
  induction l1 with
  | nil => simp
  | cons a rest ih =>
    cases hpa : p a with
    | true => simp [List.find?_cons, hpa]
    | false => simp [List.find?_cons, hpa, ih]

/-- C2 as amended.  Habit-name uniqueness is case-SENSITIVE exact match
per user (SQLite BINARY `=` in both duplicate checks): re-creating a habit
with the identical name fails with the `already_exists` outcome, mutates
nothing, and leaves exactly one habit with that exact name for the user;
renaming onto the exact name of a different existing habit fails with the
`name_exists` outcome and mutates nothing.  Names differing only in case
are treated as distinct (see the counterexample). -/
theorem C2_exact_uniqueness (s : Store) (u : Nat) (now : Str) (d : IData)
    (oldName newName : Str) :
    ((addHabitOp d u now s).1.success = true →
      (addHabitOp d u now (addHabitOp d u now s).2).1.success = false ∧
      (addHabitOp d u now (addHabitOp d u now s).2).1.data.alreadyExists = true ∧
      (addHabitOp d u now (addHabitOp d u now s).2).2 = (addHabitOp d u now s).2 ∧
      ((addHabitOp d u now s).2.habits.filter fun h =>
          h.name = pyStrip (d.habitName.getD []) ∧ h.userId = u).length = 1) ∧
    (oldName ≠ [] → newName ≠ [] →
      ∀ hid an, findHabitByName s.habits oldName u = some (hid, an) →
      (s.habits.find? fun h => h.name = newName ∧ h.userId = u ∧ h.hid ≠ hid).isSome →
      (renameHabitOp oldName newName u s).1.success = false ∧
      (renameHabitOp oldName newName u s).1.data.nameExists = true ∧
      (renameHabitOp oldName newName u s).2 = s) := by
  constructor
  · intro hsucc
    simp only [addHabitOp] at hsucc ⊢
    by_cases hguard : pyStrip (d.habitName.getD []) = [] ∨
        (pyStrip (d.habitName.getD [])).length < 2
    · rw [if_pos hguard] at hsucc
      exact absurd hsucc (by simp)
    · rw [if_neg hguard] at hsucc
      cases hex : findExact s.habits u (pyStrip (d.habitName.getD [])) with
      | some h =>
        rw [hex] at hsucc
        exact absurd hsucc (by simp)
      | none =>
        simp only [hex] at hsucc ⊢
        simp only [if_neg hguard]
        have hfind2 : findExact
            (s.habits ++ [⟨s.nextId, u, pyStrip (d.habitName.getD []), ("#2ecc40").toList, now⟩])
            u (pyStrip (d.habitName.getD [])) =
            some ⟨s.nextId, u, pyStrip (d.habitName.getD []), ("#2ecc40").toList, now⟩ := by
          unfold findExact at hex ⊢
          rw [find?_append_chars, hex]
          simp
        rw [hfind2]
        refine ⟨rfl, rfl, rfl, ?_⟩
        rw [List.filter_append]
        have hnilf : s.habits.filter (fun h =>
            h.name = pyStrip (d.habitName.getD []) ∧ h.userId = u) = [] := by
          rw [List.filter_eq_nil_iff]
          intro a ha
          have := List.find?_eq_none.mp hex a ha
          simpa using this
        rw [hnilf]
        simp
  · intro hold hnew hid an hfind hsome
    unfold renameHabitOp
    rw [if_neg (by simp [hold, hnew])]
    rw [hfind]
    obtain ⟨h2, hh2⟩ := Option.isSome_iff_exists.mp hsome
    simp only [hh2]
    exact ⟨trivial, trivial, trivial⟩

/-- Witness for C2's amended statement: creating "Water" twice (exactly)
yields one stored habit, a non-mutating `already_exists` failure on the
second call; and renaming "Tea" onto the exact existing name "Water"
fails without mutation. -/
theorem C2_witness :
    ((addHabitOp { habitName := some (("Water").toList) } 1 []
        (addHabitOp { habitName := some (("Water").toList) } 1 [] ⟨[], [], 1⟩).2).1.success = false ∧
     (addHabitOp { habitName := some (("Water").toList) } 1 []
        (addHabitOp { habitName := some (("Water").toList) } 1 [] ⟨[], [], 1⟩).2).1.data.alreadyExists = true ∧
     (addHabitOp { habitName := some (("Water").toList) } 1 []
        (addHabitOp { habitName := some (("Water").toList) } 1 [] ⟨[], [], 1⟩).2).2 =
       (addHabitOp { habitName := some (("Water").toList) } 1 [] ⟨[], [], 1⟩).2 ∧
     ((addHabitOp { habitName := some (("Water").toList) } 1 [] ⟨[], [], 1⟩).2.habits.filter fun h =>
         h.name = pyStrip ((some (("Water").toList)).getD []) ∧ h.userId = 1).length = 1) ∧
    ((renameHabitOp (("Tea").toList) (("Water").toList) 1
        ⟨[⟨1, 1, ("Water").toList, [], []⟩, ⟨2, 1, ("Tea").toList, [], []⟩], [], 3⟩).1.success = false ∧
     (renameHabitOp (("Tea").toList) (("Water").toList) 1
        ⟨[⟨1, 1, ("Water").toList, [], []⟩, ⟨2, 1, ("Tea").toList, [], []⟩], [], 3⟩).1.data.nameExists = true ∧
     (renameHabitOp (("Tea").toList) (("Water").toList) 1
        ⟨[⟨1, 1, ("Water").toList, [], []⟩, ⟨2, 1, ("Tea").toList, [], []⟩], [], 3⟩).2 =
       ⟨[⟨1, 1, ("Water").toList, [], []⟩, ⟨2, 1, ("Tea").toList, [], []⟩], [], 3⟩) :=
  ⟨(C2_exact_uniqueness ⟨[], [], 1⟩ 1 [] { habitName := some (("Water").toList) } [] []).1
      (by decide),
   (C2_exact_uniqueness
      ⟨[⟨1, 1, ("Water").toList, [], []⟩, ⟨2, 1, ("Tea").toList, [], []⟩], [], 3⟩ 1 []
      {} (("Tea").toList) (("Water").toList)).2
      (by decide) (by decide) 2 (("Tea").toList) (by decide) (by decide)⟩

theorem filter_length_le_one_of_pairwise {α : Type} (p : α → Bool) (l : List α)
    (hpw : l.Pairwise fun a b => ¬(p a = true ∧ p b = true)) :
    (l.filter p).length ≤ 1 := by
  induction l with
  | nil => simp
  | cons a rest ih =>
    rw [List.pairwise_cons] at hpw
    cases hpa : p a with
    | true =>
      have hrest : rest.filter p = [] := by
        rw [List.filter_eq_nil_iff]
        intro b hb hpb
        exact hpw.1 b hb ⟨hpa, hpb⟩
      simp [List.filter_cons, hpa, hrest]
    | false =>
      simpa [List.filter_cons, hpa] using ih hpw.2

theorem find?_map_entries (f : Entry → Entry) (p : Entry → Bool) (l : List Entry)
    (hpf : ∀ e, p (f e) = p e) :
    (l.map f).find? p = (l.find? p).map f := by
  induction l with
  | nil => simp
  | cons a rest ih =>
    cases hpa : p a with
    | true => simp [List.find?_cons, hpf, hpa]
    | false => simp [List.find?_cons, hpf, hpa, ih]

theorem completeHabitOp_second_call (s : Store) (u : Nat) (todayIso : Str) (d : IData)
    (hwf : entriesKeyUnique s) :
    (completeHabitOp d u todayIso s).1.success = true →
      ∀ hid an, findHabitByName s.habits (pyStrip (d.habitName.getD [])) u = some (hid, an) →
      (completeHabitOp d u todayIso (completeHabitOp d u todayIso s).2).1.success = false ∧
      (completeHabitOp d u todayIso
        (completeHabitOp d u todayIso s).2).1.data.alreadyCompleted = true ∧
      (completeHabitOp d u todayIso (completeHabitOp d u todayIso s).2).2 =
        (completeHabitOp d u todayIso s).2 ∧
      completedCount (completeHabitOp d u todayIso s).2 u hid
        (resolveTargetDate d todayIso) = 1 := by
  intro hsucc hid an hfind
  have hnm : ¬(pyStrip (d.habitName.getD []) = []) := by
    intro h
    simp only [completeHabitOp] at hsucc
    rw [if_pos h] at hsucc
    simp at hsucc
  simp only [completeHabitOp, if_neg hnm] at hsucc ⊢
  simp only [hfind] at hsucc ⊢
  cases hent : s.entries.find? (fun e =>
      e.userId = u ∧ e.habitId = hid ∧ e.date = resolveTargetDate d todayIso) with
  | some e =>
    simp only [hent] at hsucc ⊢
    cases hec : e.completed with
    | true => simp [hec] at hsucc
    | false =>
      have hkey := List.find?_some hent
      simp only [decide_eq_true_eq] at hkey
      simp only [hec, Bool.false_eq_true, if_false] at hsucc ⊢
      have hpf : ∀ e2 : Entry,
          (fun e => decide (e.userId = u ∧ e.habitId = hid ∧
            e.date = resolveTargetDate d todayIso))
            ((fun e2 => if e2.userId = u ∧ e2.habitId = hid ∧
                e2.date = resolveTargetDate d todayIso then
              { e2 with completed := true } else e2) e2) =
          (fun e => decide (e.userId = u ∧ e.habitId = hid ∧
            e.date = resolveTargetDate d todayIso)) e2 := by
        intro e2
        by_cases h2 : e2.userId = u ∧ e2.habitId = hid ∧
            e2.date = resolveTargetDate d todayIso
        · simp [h2]
        · simp [h2]
      have hmap := find?_map_entries
        (fun e2 => if e2.userId = u ∧ e2.habitId = hid ∧
            e2.date = resolveTargetDate d todayIso then
          { e2 with completed := true } else e2)
        (fun e => decide (e.userId = u ∧ e.habitId = hid ∧
          e.date = resolveTargetDate d todayIso)) s.entries hpf
      rw [hent] at hmap
      simp only [Option.map_some'] at hmap
      rw [if_pos hkey] at hmap
      simp only [hfind]
      simp only [hmap]
      refine ⟨rfl, rfl, rfl, ?_⟩
      unfold completedCount
      simp only
      rw [List.filter_map]
      have hfcongr : List.filter ((fun e => decide (e.userId = u ∧ e.habitId = hid ∧
            e.date = resolveTargetDate d todayIso ∧ e.completed = true)) ∘
            (fun e2 => if e2.userId = u ∧ e2.habitId = hid ∧
                e2.date = resolveTargetDate d todayIso then
              { e2 with completed := true } else e2)) s.entries =
          List.filter (fun e => decide (e.userId = u ∧ e.habitId = hid ∧
            e.date = resolveTargetDate d todayIso)) s.entries := by
        apply List.filter_congr
        intro x hx
        by_cases h2 : x.userId = u ∧ x.habitId = hid ∧
            x.date = resolveTargetDate d todayIso
        · simp [Function.comp, h2]
        · simp [Function.comp, h2]
          intro ha hb hc
          exact absurd ⟨ha, hb, hc⟩ h2
      rw [hfcongr]
      rw [List.length_map]
      have hpw : s.entries.Pairwise (fun a b =>
          ¬((fun e => decide (e.userId = u ∧ e.habitId = hid ∧
              e.date = resolveTargetDate d todayIso)) a = true ∧
            (fun e => decide (e.userId = u ∧ e.habitId = hid ∧
              e.date = resolveTargetDate d todayIso)) b = true)) := by
        apply List.Pairwise.imp _ hwf
        intro a b hr hab
        simp only [decide_eq_true_eq] at hab
        exact hr ⟨hab.1.1.trans hab.2.1.symm, hab.1.2.1.trans hab.2.2.1.symm,
          hab.1.2.2.trans hab.2.2.2.symm⟩
      have hle := filter_length_le_one_of_pairwise _ s.entries hpw
      have hmemf : e ∈ s.entries.filter (fun e => decide (e.userId = u ∧ e.habitId = hid ∧
          e.date = resolveTargetDate d todayIso)) := by
        rw [List.mem_filter]
        exact ⟨List.mem_of_find?_eq_some hent, by simp [hkey]⟩
      have hpos := List.length_pos_of_mem hmemf
      omega
  | none =>
    simp only [hent] at hsucc ⊢
    simp only [hfind]
    have happ : (s.entries ++ [(⟨u, hid, resolveTargetDate d todayIso, true⟩ : Entry)]).find?
        (fun e => decide (e.userId = u ∧ e.habitId = hid ∧
          e.date = resolveTargetDate d todayIso)) =
        some ⟨u, hid, resolveTargetDate d todayIso, true⟩ := by
      rw [find?_append_chars, hent]
      simp
    simp only [happ]
    refine ⟨rfl, rfl, rfl, ?_⟩
    unfold completedCount
    simp only
    rw [List.filter_append]
    have hnil : s.entries.filter (fun e => decide (e.userId = u ∧ e.habitId = hid ∧
        e.date = resolveTargetDate d todayIso ∧ e.completed)) = [] := by
      rw [List.filter_eq_nil_iff]
      intro a ha hfp
      have hnone := List.find?_eq_none.mp hent a ha
      simp only [decide_eq_true_eq] at hnone hfp
      exact hnone ⟨hfp.1, hfp.2.1, hfp.2.2.1⟩
    rw [hnil]
    simp

theorem completeHabitOp_none_date (s : Store) (u : Nat) (todayIso : Str) (d : IData) :
    completeHabitOp { d with date := none } u todayIso s =
      completeHabitOp { d with date := some todayIso } u todayIso s := by
  have hrt : resolveTargetDate { d with date := none } todayIso =
      resolveTargetDate { d with date := some todayIso } todayIso := by
    simp [resolveTargetDate]
  unfold completeHabitOp
  rw [hrt]

/-- C4.  Completing a habit twice for the same date: when the first call
succeeds, the second identical call fails with the `already_completed`
outcome and performs no mutation, and exactly one completed entry exists
for the resolved habit and target date (using the entry-table key
uniqueness the schema's `UNIQUE(user_id, habit_id, date)` constraint
guarantees).  A null/absent date is treated as today: completing with no
date is the same operation as completing with today's date. -/
theorem C4_complete_twice_idempotent (s : Store) (u : Nat) (todayIso : Str) (d : IData)
    (hwf : entriesKeyUnique s) :
    ((completeHabitOp d u todayIso s).1.success = true →
      ∀ hid an, findHabitByName s.habits (pyStrip (d.habitName.getD [])) u = some (hid, an) →
      (completeHabitOp d u todayIso (completeHabitOp d u todayIso s).2).1.success = false ∧
      (completeHabitOp d u todayIso
        (completeHabitOp d u todayIso s).2).1.data.alreadyCompleted = true ∧
      (completeHabitOp d u todayIso (completeHabitOp d u todayIso s).2).2 =
        (completeHabitOp d u todayIso s).2 ∧
      completedCount (completeHabitOp d u todayIso s).2 u hid
        (resolveTargetDate d todayIso) = 1) ∧
    completeHabitOp { d with date := none } u todayIso s =
      completeHabitOp { d with date := some todayIso } u todayIso s :=
  ⟨completeHabitOp_second_call s u todayIso d hwf,
   completeHabitOp_none_date s u todayIso d⟩

/-- Witness for C4, at a store holding habit "Gym" with no entries:
completing "Gym" today succeeds; the second completion fails with
`already_completed`, mutates nothing, and exactly one completed entry
exists for (habit 1, today). -/
theorem C4_witness :
    (completeHabitOp { habitName := some (("Gym").toList) } 1 (("2025-10-12").toList)
      (completeHabitOp { habitName := some (("Gym").toList) } 1 (("2025-10-12").toList)
        ⟨[⟨1, 1, ("Gym").toList, [], []⟩], [], 2⟩).2).1.success = false ∧
    (completeHabitOp { habitName := some (("Gym").toList) } 1 (("2025-10-12").toList)
      (completeHabitOp { habitName := some (("Gym").toList) } 1 (("2025-10-12").toList)
        ⟨[⟨1, 1, ("Gym").toList, [], []⟩], [], 2⟩).2).1.data.alreadyCompleted = true ∧
    (completeHabitOp { habitName := some (("Gym").toList) } 1 (("2025-10-12").toList)
      (completeHabitOp { habitName := some (("Gym").toList) } 1 (("2025-10-12").toList)
        ⟨[⟨1, 1, ("Gym").toList, [], []⟩], [], 2⟩).2).2 =
      (completeHabitOp { habitName := some (("Gym").toList) } 1 (("2025-10-12").toList)
        ⟨[⟨1, 1, ("Gym").toList, [], []⟩], [], 2⟩).2 ∧
    completedCount (completeHabitOp { habitName := some (("Gym").toList) } 1
        (("2025-10-12").toList) ⟨[⟨1, 1, ("Gym").toList, [], []⟩], [], 2⟩).2 1 1
      (resolveTargetDate { habitName := some (("Gym").toList) } (("2025-10-12").toList)) = 1 :=
  (C4_complete_twice_idempotent ⟨[⟨1, 1, ("Gym").toList, [], []⟩], [], 2⟩ 1
    (("2025-10-12").toList) { habitName := some (("Gym").toList) } (by decide)).1
    (by decide) 1 (("Gym").toList) (by decide)

theorem firstSome_eq_some {α β : Type} (l : List α) (f : α → Option β) (b : β) :
    firstSome l f = some b → ∃ a ∈ l, f a = some b := by
  induction l with
  | nil => intro h; exact absurd h (by simp [firstSome])
  | cons a rest ih =>
    intro h
    unfold firstSome at h
    cases hfa : f a with
    | some b2 =>
      simp only [hfa] at h
      exact ⟨a, by simp, by rw [hfa, h]⟩
    | none =>
      simp only [hfa] at h
      obtain ⟨a2, ha2, hfa2⟩ := ih h
      exact ⟨a2, by simp [ha2], hfa2⟩

theorem extractHabitDetails_bounds (today : CalDate) (now : Str) (act : Act)
    (cp : Caps) (ng : Nat) (text : Str) (r : IntentResult)
    (h : extractHabitDetails today now act cp ng text = some r) :
    50 < r.confidence ∧ r.confidence ≤ 100 ∧ r.timestamp = now ∧
      (mutatingHabitActions.contains r.action = true → 70 ≤ r.confidence) := by
  cases act <;>
    simp only [extractHabitDetails, createResult] at h <;>
    (try split_ifs at h) <;>
    (try cases h) <;>
    simp_all [mutatingHabitActions, createResult]

theorem checkHabitActions_bounds (today : CalDate) (now : Str) (text tl : Str) :
    (checkHabitActions today now text tl = createResult .unknown {} 0 now) ∨
    (50 < (checkHabitActions today now text tl).confidence ∧
      (checkHabitActions today now text tl).confidence ≤ 100 ∧
      (checkHabitActions today now text tl).timestamp = now ∧
      (mutatingHabitActions.contains (checkHabitActions today now text tl).action = true →
        70 ≤ (checkHabitActions today now text tl).confidence)) := by
  unfold checkHabitActions
  cases hfs : firstSome actionTable (fun entry =>
      firstSome entry.2 (fun pat =>
        match reSearchCaps pat tl with
        | some cp => extractHabitDetails today now entry.1 cp (maxGrp pat) text
        | none => none)) with
  | none => left; rfl
  | some r0 =>
    right
    obtain ⟨entry, _, hinner⟩ := firstSome_eq_some _ _ _ hfs
    obtain ⟨pat, _, hpat⟩ := firstSome_eq_some _ _ _ hinner
    cases hsc : reSearchCaps pat tl with
    | none => rw [hsc] at hpat; exact absurd hpat (by simp)
    | some cp =>
      rw [hsc] at hpat
      exact extractHabitDetails_bounds today now entry.1 cp (maxGrp pat) text r0 hpat

/-- C7.  Intent classification is total (the embedding is a total
function, matching the documented never-throws behaviour), always yields a
well-formed result stamped with the request time whose confidence lies in
[0,1] (≤ 100 in hundredths), and returns `unknown` with confidence 0 on
empty or whitespace-only input. -/
theorem C7_classifier_total (clk : Clock) (msg : Str) :
    ((parseIntent clk.today clk.nowIso msg).confidence ≤ 100 ∧
      (∃ a dd c, parseIntent clk.today clk.nowIso msg = createResult a dd c clk.nowIso)) ∧
    (pyStrip msg = [] →
      parseIntent clk.today clk.nowIso msg = createResult .unknown {} 0 clk.nowIso) := by
  unfold parseIntent
  by_cases hemp : pyStrip msg = []
  · rw [if_pos hemp]
    exact ⟨⟨by simp [createResult], .unknown, {}, 0, rfl⟩, fun _ => rfl⟩
  · rw [if_neg hemp]
    refine ⟨?_, fun h => absurd h hemp⟩
    by_cases hconv : isConversational (lowerStr (pyStrip msg)) = true
    · rw [if_pos hconv]
      exact ⟨by simp [createResult], .conversation, _, 90, rfl⟩
    · rw [if_neg hconv]
      rcases checkHabitActions_bounds clk.today clk.nowIso (pyStrip msg)
          (lowerStr (pyStrip msg)) with hunk | hb
      · rw [hunk]
        rw [if_neg (by simp [createResult])]
        by_cases hkw : containsHabitKeywords (lowerStr (pyStrip msg)) = true
        · rw [if_pos hkw]
          exact ⟨by simp [createResult], .habitConversation, _, 60, rfl⟩
        · rw [if_neg hkw]
          exact ⟨by simp [createResult], .conversation, _, 70, rfl⟩
      · by_cases hgt : (checkHabitActions clk.today clk.nowIso (pyStrip msg)
            (lowerStr (pyStrip msg))).confidence > 50
        · rw [if_pos hgt]
          refine ⟨hb.2.1, ?_⟩
          refine ⟨(checkHabitActions clk.today clk.nowIso (pyStrip msg)
              (lowerStr (pyStrip msg))).action,
            (checkHabitActions clk.today clk.nowIso (pyStrip msg)
              (lowerStr (pyStrip msg))).data,
            (checkHabitActions clk.today clk.nowIso (pyStrip msg)
              (lowerStr (pyStrip msg))).confidence, ?_⟩
          unfold createResult
          have ht := hb.2.2.1
          cases hck : checkHabitActions clk.today clk.nowIso (pyStrip msg)
              (lowerStr (pyStrip msg))
          rw [hck] at ht
          simp at ht
          rw [ht]
        · rw [if_neg hgt]
          by_cases hkw : containsHabitKeywords (lowerStr (pyStrip msg)) = true
          · rw [if_pos hkw]
            exact ⟨by simp [createResult], .habitConversation, _, 60, rfl⟩
          · rw [if_neg hkw]
            exact ⟨by simp [createResult], .conversation, _, 70, rfl⟩

/-- C1.  The classifier can never emit a mutating habit action below its
threshold: every classified mutating habit intent (add, complete, edit,
delete) carries confidence at least 0.70 (70 in hundredths), the top of
the per-action threshold band, so "confidence below the threshold" never
holds for a dispatched mutating action; and the unified pipeline routes
every intent with confidence at or below 0.60 to the conversation branch,
never invoking the dispatcher and leaving no dispatched outcome. -/
theorem C1_low_confidence_downgraded (clk : Clock) (msg : Str) :
    (mutatingHabitActions.contains (parseIntent clk.today clk.nowIso msg).action = true →
      70 ≤ (parseIntent clk.today clk.nowIso msg).confidence) ∧
    (∀ (userId : Nat) (s : Store) (aiCtx aiFb : Except Unit Str)
        (detect : Store → Except Unit (Option Detected × Store)),
      (parseIntent clk.today clk.nowIso msg).confidence ≤ 60 →
      (processUnifiedMessage msg userId clk s aiCtx aiFb detect).1.dispatchInvoked = false ∧
      (processUnifiedMessage msg userId clk s aiCtx aiFb detect).1.habitAction = none) := by
  constructor
  · intro hmut
    unfold parseIntent at hmut ⊢
    by_cases hemp : pyStrip msg = []
    · rw [if_pos hemp] at hmut
      exact absurd hmut (by simp [createResult, mutatingHabitActions])
    · rw [if_neg hemp] at hmut ⊢
      by_cases hconv : isConversational (lowerStr (pyStrip msg)) = true
      · rw [if_pos hconv] at hmut
        exact absurd hmut (by simp [createResult, mutatingHabitActions])
      · rw [if_neg hconv] at hmut ⊢
        by_cases hgt : (checkHabitActions clk.today clk.nowIso (pyStrip msg)
            (lowerStr (pyStrip msg))).confidence > 50
        · rw [if_pos hgt] at hmut ⊢
          rcases checkHabitActions_bounds clk.today clk.nowIso (pyStrip msg)
              (lowerStr (pyStrip msg)) with hunk | hb
          · rw [hunk] at hgt
            exact absurd hgt (by simp [createResult])
          · exact hb.2.2.2 hmut
        · rw [if_neg hgt] at hmut ⊢
          by_cases hkw : containsHabitKeywords (lowerStr (pyStrip msg)) = true
          · rw [if_pos hkw] at hmut
            exact absurd hmut (by simp [createResult, mutatingHabitActions])
          · rw [if_neg hkw] at hmut
            exact absurd hmut (by simp [createResult, mutatingHabitActions])
  · intro userId s aiCtx aiFb detect hconf
    unfold processUnifiedMessage
    rw [if_neg (by
      intro hcond
      exact absurd hcond.2 (by omega))]
    cases hai : (match aiCtx with | .ok r => Except.ok r | .error _ => aiFb) with
    | error e => exact ⟨rfl, rfl⟩
    | ok ai =>
      cases hdet : detect s with
      | error e => exact ⟨rfl, rfl⟩
      | ok pr => exact ⟨rfl, rfl⟩

/-- Witness for C7: the empty message classifies as `unknown` with
confidence 0. -/
theorem C7_witness :
    parseIntent (CalDate.mk 2025 10 12) [] [] = createResult .unknown {} 0 [] :=
  (C7_classifier_total ⟨⟨2025, 10, 12⟩, []⟩ []).2 (by decide)

/-- Witness for C1: "add habit to gym" classifies as the mutating
`add_habit` with confidence 0.85 ≥ 0.70, and the habit-keyword message "my
streak" (confidence 0.60) is routed to the conversation branch with the
dispatcher never invoked. -/
theorem C1_witness :
    70 ≤ (parseIntent ⟨2025, 10, 12⟩ [] (("add habit to gym").toList)).confidence ∧
    ((processUnifiedMessage (("my streak").toList) 1 ⟨⟨2025, 10, 12⟩, []⟩ ⟨[], [], 1⟩
        (Except.ok []) (Except.ok []) (fun s => Except.ok (none, s))).1.dispatchInvoked = false ∧
      (processUnifiedMessage (("my streak").toList) 1 ⟨⟨2025, 10, 12⟩, []⟩ ⟨[], [], 1⟩
        (Except.ok []) (Except.ok []) (fun s => Except.ok (none, s))).1.habitAction = none) :=
  ⟨(C1_low_confidence_downgraded ⟨⟨2025, 10, 12⟩, []⟩ (("add habit to gym").toList)).1
      (by decide),
   (C1_low_confidence_downgraded ⟨⟨2025, 10, 12⟩, []⟩ (("my streak").toList)).2
      1 ⟨[], [], 1⟩ (Except.ok []) (Except.ok []) (fun s => Except.ok (none, s))
      (by decide)⟩

/-- C3 as amended.  Exactly one reply is always produced (the pipeline is
a total function into a single result).  A ConversationTurn persistence is
attempted at most once per Command; exactly once when the dispatched
action succeeds, and exactly once on the conversation branch when no
internal exception occurs.  When the dispatched action fails, its failure
message is the reply, `action_taken` is true, and no persistence is
attempted; on an internal exception the generic apologetic reply is
returned with `action_taken=false` and no persistence is attempted. -/
theorem C3_reply_and_persistence (msg : Str) (userId : Nat) (clk : Clock) (s : Store)
    (aiCtx aiFb : Except Unit Str)
    (detect : Store → Except Unit (Option Detected × Store)) :
    (processUnifiedMessage msg userId clk s aiCtx aiFb detect).1.persisted.length ≤ 1 ∧
    (∀ o, (processUnifiedMessage msg userId clk s aiCtx aiFb detect).1.habitAction = some o →
      (processUnifiedMessage msg userId clk s aiCtx aiFb detect).1.dispatchInvoked = true ∧
      (processUnifiedMessage msg userId clk s aiCtx aiFb detect).1.reply = .ofMsg o.message ∧
      (processUnifiedMessage msg userId clk s aiCtx aiFb detect).1.actionTaken = true ∧
      (o.success = true →
        (processUnifiedMessage msg userId clk s aiCtx aiFb detect).1.persisted =
          [(msg, Reply.ofMsg o.message)]) ∧
      (o.success = false →
        (processUnifiedMessage msg userId clk s aiCtx aiFb detect).1.persisted = [])) ∧
    ((processUnifiedMessage msg userId clk s aiCtx aiFb detect).1.processingType = .error →
      (processUnifiedMessage msg userId clk s aiCtx aiFb detect).1.reply = .genericError ∧
      (processUnifiedMessage msg userId clk s aiCtx aiFb detect).1.actionTaken = false ∧
      (processUnifiedMessage msg userId clk s aiCtx aiFb detect).1.persisted = []) ∧
    ((processUnifiedMessage msg userId clk s aiCtx aiFb detect).1.dispatchInvoked = false →
      (processUnifiedMessage msg userId clk s aiCtx aiFb detect).1.processingType ≠ .error →
      (processUnifiedMessage msg userId clk s aiCtx aiFb detect).1.persisted =
        [(msg, (processUnifiedMessage msg userId clk s aiCtx aiFb detect).1.reply)]) := by
  unfold processUnifiedMessage
  by_cases hcond : dispatchActions.contains
      (parseIntent clk.today clk.nowIso msg).action = true ∧
      (parseIntent clk.today clk.nowIso msg).confidence > 60
  · rw [if_pos hcond]
    cases hvc : executeVoiceCommand (parseIntent clk.today clk.nowIso msg) userId clk s with
    | mk voiceResult s2 =>
      simp only
      by_cases hsu : voiceResult.success = true
      · simp only [hsu, if_true]
        refine ⟨by simp, ?_, by intro h; exact absurd h (by simp), by simp⟩
        intro o ho
        have hvo : voiceResult = o := by injection ho
        subst hvo
        exact ⟨by trivial, by trivial, by trivial, fun _ => by simp [hsu],
          fun hf => by simp [hsu] at hf⟩
      · have hsu2 : voiceResult.success = false := by
          cases hx : voiceResult.success
          · rfl
          · exact absurd hx hsu
        simp only [hsu2, Bool.false_eq_true, if_false]
        refine ⟨by simp, ?_, by intro h; exact absurd h (by simp), by simp⟩
        intro o ho
        have hvo : voiceResult = o := by injection ho
        subst hvo
        exact ⟨by trivial, by trivial, by trivial, fun ht => by simp [hsu2] at ht,
          fun _ => by trivial⟩
  · rw [if_neg hcond]
    cases hai : (match aiCtx with | .ok r => Except.ok r | .error _ => aiFb) with
    | error e =>
      refine ⟨by simp [errorPipelineResult], ?_, fun _ => ⟨rfl, rfl, rfl⟩,
        fun _ h => absurd rfl h⟩
      intro o ho
      exact absurd ho (by simp [errorPipelineResult])
    | ok ai =>
      cases hdet : detect s with
      | error e =>
        refine ⟨by simp [errorPipelineResult], ?_, fun _ => ⟨rfl, rfl, rfl⟩,
          fun _ h => absurd rfl h⟩
        intro o ho
        exact absurd ho (by simp [errorPipelineResult])
      | ok pr =>
        refine ⟨by simp, ?_, by intro h; exact absurd h (by simp), fun _ _ => rfl⟩
        intro o ho
        exact absurd ho (by simp)

/-- C3 counterexample.  With habit "Gym" stored, the command "add habit to
gym" dispatches, the add fails as a duplicate, and the pipeline then
attempts NO persistence of the turn (the source persists only `if
voice_result.get('success')`), returns the failure message rather than a
generic reply, and reports `action_taken=true` — contradicting the claimed
"one persisted ConversationTurn per Command regardless of internal
failure" and "generic reply with action_taken=false" behaviour on
failures. -/
theorem C3_counterexample :
    (processUnifiedMessage (("add habit to gym").toList) 1 ⟨⟨2025, 10, 12⟩, []⟩
      ⟨[⟨1, 1, ("Gym").toList, ("#2ecc40").toList, []⟩], [], 2⟩
      (Except.ok []) (Except.ok []) (fun s => Except.ok (none, s))).1.persisted = [] ∧
    (processUnifiedMessage (("add habit to gym").toList) 1 ⟨⟨2025, 10, 12⟩, []⟩
      ⟨[⟨1, 1, ("Gym").toList, ("#2ecc40").toList, []⟩], [], 2⟩
      (Except.ok []) (Except.ok []) (fun s => Except.ok (none, s))).1.actionTaken = true ∧
    (processUnifiedMessage (("add habit to gym").toList) 1 ⟨⟨2025, 10, 12⟩, []⟩
      ⟨[⟨1, 1, ("Gym").toList, ("#2ecc40").toList, []⟩], [], 2⟩
      (Except.ok []) (Except.ok []) (fun s => Except.ok (none, s))).1.reply ≠
        Reply.genericError ∧
    ((processUnifiedMessage (("add habit to gym").toList) 1 ⟨⟨2025, 10, 12⟩, []⟩
      ⟨[⟨1, 1, ("Gym").toList, ("#2ecc40").toList, []⟩], [], 2⟩
      (Except.ok []) (Except.ok []) (fun s => Except.ok (none, s))).1.habitAction.map
        Outcome.success) = some false := by
  decide

/-- Witness for C3's amended statement: on the conversation branch with no
exception ("zzz"), exactly the one turn is persisted; with a raising
conversation fallback, the error result carries the generic reply,
`action_taken=false`, and no persistence attempt. -/
theorem C3_witness :
    (processUnifiedMessage (("zzz").toList) 1 ⟨⟨2025, 10, 12⟩, []⟩ ⟨[], [], 1⟩
      (Except.ok []) (Except.ok []) (fun s => Except.ok (none, s))).1.persisted =
      [((("zzz").toList),
        (processUnifiedMessage (("zzz").toList) 1 ⟨⟨2025, 10, 12⟩, []⟩ ⟨[], [], 1⟩
          (Except.ok []) (Except.ok []) (fun s => Except.ok (none, s))).1.reply)] ∧
    ((processUnifiedMessage (("zzz").toList) 1 ⟨⟨2025, 10, 12⟩, []⟩ ⟨[], [], 1⟩
        (Except.error ()) (Except.error ()) (fun s => Except.ok (none, s))).1.reply =
          Reply.genericError ∧
      (processUnifiedMessage (("zzz").toList) 1 ⟨⟨2025, 10, 12⟩, []⟩ ⟨[], [], 1⟩
        (Except.error ()) (Except.error ()) (fun s => Except.ok (none, s))).1.actionTaken =
          false ∧
      (processUnifiedMessage (("zzz").toList) 1 ⟨⟨2025, 10, 12⟩, []⟩ ⟨[], [], 1⟩
        (Except.error ()) (Except.error ()) (fun s => Except.ok (none, s))).1.persisted = []) :=
  ⟨(C3_reply_and_persistence (("zzz").toList) 1 ⟨⟨2025, 10, 12⟩, []⟩ ⟨[], [], 1⟩
      (Except.ok []) (Except.ok []) (fun s => Except.ok (none, s))).2.2.2
      (by decide) (by decide),
   (C3_reply_and_persistence (("zzz").toList) 1 ⟨⟨2025, 10, 12⟩, []⟩ ⟨[], [], 1⟩
      (Except.error ()) (Except.error ()) (fun s => Except.ok (none, s))).2.2.1
      (by decide)⟩

theorem startsWith_exists (p : Str) : ∀ s : Str, startsWith s p = true → ∃ r, s = p ++ r := by
  induction p with
  | nil => intro s _; exact ⟨s, rfl⟩
  | cons pc pr ih =>
    intro s hs
    cases s with
    | nil => exact absurd hs (by simp [startsWith])
    | cons sc sr =>
      unfold startsWith at hs
      rw [Bool.and_eq_true] at hs
      obtain ⟨r, hr⟩ := ih sr hs.2
      have hc : pc = sc := by simpa using hs.1
      exact ⟨r, by rw [hr, ← hc]; rfl⟩

theorem startsWith_append_self (p r : Str) : startsWith (p ++ r) p = true := by
  induction p with
  | nil => simp [startsWith]
  | cons pc pr ih => simpa [startsWith] using ih

theorem containsSub_exists (needle : Str) :
    ∀ hay : Str, containsSub hay needle = true → ∃ pre rest, hay = pre ++ (needle ++ rest) := by
  intro hay
  induction hay with
  | nil =>
    intro h
    unfold containsSub at h
    cases needle with
    | nil => exact ⟨[], [], rfl⟩
    | cons c cs => exact absurd h (by simp [startsWith])
  | cons c rest ih =>
    intro h
    unfold containsSub at h
    rw [Bool.or_eq_true] at h
    cases h with
    | inl hsw =>
      obtain ⟨r, hr⟩ := startsWith_exists needle (c :: rest) hsw
      exact ⟨[], r, hr⟩
    | inr hsub =>
      obtain ⟨pre, r, hr⟩ := ih hsub
      exact ⟨c :: pre, r, by rw [hr]; rfl⟩

theorem reMatchF_lit_ne_nil (fuel : Nat) (w cs : Str) (hfuel : 1 ≤ fuel)
    (hsw : startsWith cs w = true) : reMatchF fuel (.lit w) cs ≠ [] := by
  cases fuel with
  | zero => omega
  | succ f => simp [reMatchF, hsw]

theorem lits_ne_nil (ws : List String) (cs : Str) :
    ∀ fuel : Nat, ws.length + 1 ≤ fuel →
    (∃ w ∈ ws, startsWith cs w.toList = true) → reMatchF fuel (lits ws) cs ≠ [] := by
  induction ws with
  | nil =>
    intro fuel _ hex
    rcases hex with ⟨w, hw, _⟩
    exact absurd hw (List.not_mem_nil w)
  | cons w ws' ih =>
    intro fuel hfuel hex
    cases ws' with
    | nil =>
      obtain ⟨w2, hw2, hsw⟩ := hex
      rw [List.mem_singleton] at hw2
      subst hw2
      exact reMatchF_lit_ne_nil fuel w2.toList cs (by omega) hsw
    | cons v rest =>
      cases fuel with
      | zero => omega
      | succ f =>
        have hlen : (w :: v :: rest).length = rest.length + 2 := by simp
      
        show reMatchF f (.lit w.toList) cs ++ reMatchF f (lits (v :: rest)) cs ≠ []
        rw [Ne, List.append_eq_nil]
        intro hc
        rcases hex with ⟨w2, hw2, hsw⟩
        rcases List.mem_cons.mp hw2 with heq | hmem
        · subst heq
          exact reMatchF_lit_ne_nil f w2.toList cs (by rw [hlen] at hfuel; omega) hsw hc.1
        · exact ih f (by rw [hlen] at hfuel; simp; omega) ⟨w2, hmem, hsw⟩ hc.2

theorem reSearchCaps_isSome_of_suffix (re : RE) (suffix : Str)
    (hne : reMatch re suffix ≠ []) :
    ∀ pre : Str, (reSearchCaps re (pre ++ suffix)).isSome = true := by
  intro pre
  induction pre with
  | nil =>
    rw [List.nil_append]
    cases hs : suffix with
    | nil =>
      rw [hs] at hne
      unfold reSearchCaps
      cases hh : (reMatch re []).head? with
      | none => exact absurd (List.head?_eq_none_iff.mp hh) hne
      | some m => simp
    | cons c rest =>
      rw [hs] at hne
      unfold reSearchCaps
      cases hh : (reMatch re (c :: rest)).head? with
      | none => exact absurd (List.head?_eq_none_iff.mp hh) hne
      | some m => simp [hh]
  | cons c rest ih =>
    rw [List.cons_append]
    unfold reSearchCaps
    cases hh : (reMatch re (c :: (rest ++ suffix))).head? with
    | none => simpa [hh] using ih
    | some m => simp [hh]

theorem starG_dotC_tailOk (t : Str) :
    ∀ fuel : Nat, tailOk t = true → t.length + 1 ≤ fuel →
    ∃ f, (f, ([] : Caps)) ∈ reMatchF fuel (.starG dotC) t ∧ (f = [] ∨ f = ['\n']) := by
  induction t with
  | nil =>
    intro fuel _ hfuel
    cases fuel with
    | zero => omega
    | succ f2 =>
      refine ⟨[], ?_, Or.inl rfl⟩
      show ([], ([] : Caps)) ∈
        ((reMatchF f2 dotC []).flatMap fun m =>
          if m.1.length < ([] : Str).length then
            (reMatchF f2 (.starG dotC) m.1).map fun n => (n.1, m.2 ++ n.2)
          else []) ++ [(([] : Str), ([] : Caps))]
      have hdot : reMatchF f2 dotC ([] : Str) = [] := by
        cases f2 <;> simp [reMatchF, dotC]
      rw [hdot]
      simp
  | cons c rest ih =>
    intro fuel htail hfuel
    cases fuel with
    | zero => omega
    | succ f2 =>
      by_cases hc : c = '\n'
      · unfold tailOk at htail
        rw [if_pos hc] at htail
        have hrest : rest = [] := by simpa using htail
        subst hrest
        refine ⟨[c], ?_, Or.inr (by rw [hc])⟩
        show ([c], ([] : Caps)) ∈
          ((reMatchF f2 dotC [c]).flatMap fun m =>
            if m.1.length < ([c] : Str).length then
              (reMatchF f2 (.starG dotC) m.1).map fun n => (n.1, m.2 ++ n.2)
            else []) ++ [(([c] : Str), ([] : Caps))]
        have hdot : reMatchF f2 dotC [c] = [] := by
          cases f2 <;> simp [reMatchF, dotC, hc]
        rw [hdot]
        simp
      · unfold tailOk at htail
        rw [if_neg hc] at htail
        obtain ⟨f, hfmem, hfok⟩ := ih f2 htail (by simp at hfuel; omega)
        refine ⟨f, ?_, hfok⟩
        show (f, ([] : Caps)) ∈
          ((reMatchF f2 dotC (c :: rest)).flatMap fun m =>
            if m.1.length < (c :: rest).length then
              (reMatchF f2 (.starG dotC) m.1).map fun n => (n.1, m.2 ++ n.2)
            else []) ++ [((c :: rest), ([] : Caps))]
        have hdot : reMatchF f2 dotC (c :: rest) = [(rest, [])] := by
          cases f2 with
          | zero => simp at hfuel
          | succ f3 => simp [reMatchF, dotC, hc]
        rw [hdot]
        apply List.mem_append_left
        simp only [List.flatMap_cons, List.flatMap_nil, List.append_nil]
        rw [if_pos (by simp)]
        exact List.mem_map.mpr ⟨(f, []), hfmem, by simp⟩

theorem qmark_ne_nil (tail : Str) (fuel : Nat) (htail : tailOk tail = true)
    (hfuel : tail.length + 4 ≤ fuel) : reMatchF fuel qmarkPat ('?' :: tail) ≠ [] := by
  obtain ⟨f3, rfl⟩ : ∃ f3, fuel = f3 + 3 := ⟨fuel - 3, by omega⟩
  obtain ⟨f, hfmem, hfok⟩ := starG_dotC_tailOk tail (f3 + 1) htail (by omega)
  have heos : reMatchF (f3 + 1) RE.eos f = [(f, [])] := by
    rcases hfok with rfl | rfl <;> simp [reMatchF]
  have hin : (f, ([] : Caps)) ∈ reMatchF (f3 + 2) (.seq (.starG dotC) .eos) tail := by
    show (f, ([] : Caps)) ∈ (reMatchF (f3 + 1) (.starG dotC) tail).flatMap fun m =>
      (reMatchF (f3 + 1) RE.eos m.1).map fun n => (n.1, m.2 ++ n.2)
    refine List.mem_flatMap.mpr ⟨(f, []), hfmem, ?_⟩
    rw [heos]
    simp
  have hlit : reMatchF (f3 + 2) (.lit (("?").toList)) ('?' :: tail) = [(tail, [])] := by
    simp [reMatchF, startsWith]
  apply List.ne_nil_of_mem (a := (f, ([] : Caps)))
  show (f, ([] : Caps)) ∈ (reMatchF (f3 + 2) (.lit (("?").toList)) ('?' :: tail)).flatMap
    fun m => (reMatchF (f3 + 2) (.seq (.starG dotC) .eos) m.1).map fun n => (n.1, m.2 ++ n.2)
  rw [hlit]
  refine List.mem_flatMap.mpr ⟨(tail, []), by simp, ?_⟩
  exact List.mem_map.mpr ⟨(f, []), hin, by simp⟩

theorem qmark_search_isSome (t : Str) (hq : qmarkFinalLine t = true) :
    (reSearchCaps qmarkPat t).isSome = true := by
  induction t with
  | nil => simp [qmarkFinalLine] at hq
  | cons c rest ih =>
    unfold qmarkFinalLine at hq
    rw [Bool.or_eq_true] at hq
    cases hq with
    | inl hhead =>
      rw [Bool.and_eq_true] at hhead
      have hc : c = '?' := by simpa using hhead.1
      subst hc
      have hne : reMatch qmarkPat ('?' :: rest) ≠ [] := by
        unfold reMatch
        apply qmark_ne_nil rest _ hhead.2
        have hsz : reSize qmarkPat = 6 := rfl
        rw [hsz]
        simp
        omega
      unfold reSearchCaps
      cases hh : (reMatch qmarkPat ('?' :: rest)).head? with
      | none => exact absurd (List.head?_eq_none_iff.mp hh) hne
      | some m => simp [hh]
    | inr htail =>
      unfold reSearchCaps
      cases hh : (reMatch qmarkPat (c :: rest)).head? with
      | none => simpa [hh] using ih htail
      | some m => simp [hh]

theorem kw_search_isSome (t : Str) (hk : convKeywordHit t = true) :
    (reSearchCaps convKeywordPat t).isSome = true := by
  unfold convKeywordHit at hk
  rw [List.any_eq_true] at hk
  obtain ⟨k, hkmem, hksub⟩ := hk
  have hw : ∃ w ∈ ["weather", "time", "date", "news", "joke", "story"],
      w.toList = k := by
    simp only [convKeywords, List.mem_cons, List.not_mem_nil, or_false] at hkmem
    rcases hkmem with rfl | rfl | rfl | rfl | rfl | rfl
    · exact ⟨"weather", by simp, rfl⟩
    · exact ⟨"time", by simp, rfl⟩
    · exact ⟨"date", by simp, rfl⟩
    · exact ⟨"news", by simp, rfl⟩
    · exact ⟨"joke", by simp, rfl⟩
    · exact ⟨"story", by simp, rfl⟩
  obtain ⟨w, hwmem, hwk⟩ := hw
  obtain ⟨pre, rest, hdec⟩ := containsSub_exists k t hksub
  rw [hdec]
  apply reSearchCaps_isSome_of_suffix
  unfold reMatch
  apply lits_ne_nil _ _ _ ?_ ⟨w, hwmem, by rw [hwk]; exact startsWith_append_self k rest⟩
  have hsz : reSize convKeywordPat = 11 := rfl
  rw [hsz]
  simp
  omega

theorem isConversational_of_cue (t : Str)
    (h : convKeywordHit t = true ∨ qmarkFinalLine t = true) :
    isConversational t = true := by
  unfold isConversational
  rw [List.any_eq_true]
  cases h with
  | inl hk =>
    refine ⟨(false, convKeywordPat), ?_, ?_⟩
    · unfold convPats
      simp
    · simpa using kw_search_isSome t hk
  | inr hq =>
    refine ⟨(false, qmarkPat), ?_, ?_⟩
    · unfold convPats
      simp
    · simpa using qmark_search_isSome t hq

/-- C10 as amended.  The conversational short-circuit fires, returning
`conversation` with confidence 0.9 before any action pattern is consulted,
for every non-empty (after stripping) input whose lower-cased form either
contains one of the substrings weather/time/date/news/joke/story anywhere,
or contains a `?` on its final line — i.e. a `?` followed only by
non-newline characters (one final newline allowed), which is what the
source's `\?.*$` pattern actually matches.  A `?` with a newline after it
does not trigger the cue (see the counterexample). -/
theorem C10_conversational_shortcircuit (clk : Clock) (msg : Str)
    (hne : pyStrip msg ≠ [])
    (hcue : convKeywordHit (lowerStr (pyStrip msg)) = true ∨
      qmarkFinalLine (lowerStr (pyStrip msg)) = true) :
    parseIntent clk.today clk.nowIso msg =
      createResult .conversation { text := some (pyStrip msg) } 90 clk.nowIso := by
  unfold parseIntent
  rw [if_neg hne, if_pos (isConversational_of_cue _ hcue)]

/-- C10 counterexample.  "x?\nadd habit to go" contains a `?`, yet because
the `?` is followed by a newline the `\?.*$` cue cannot complete (`.`
does not cross newlines and `$` anchors at the end), no conversational
pattern fires, and classification proceeds to the action patterns,
returning the structured `add_habit` intent with confidence 0.85 — not
`conversation` with confidence 0.9 as the claim requires. -/
theorem C10_counterexample :
    containsSub (lowerStr (pyStrip (("x?\nadd habit to go").toList))) [('?')] = true ∧
    (parseIntent ⟨2025, 10, 12⟩ [] (("x?\nadd habit to go").toList)).action = .addHabit ∧
    (parseIntent ⟨2025, 10, 12⟩ [] (("x?\nadd habit to go").toList)).confidence = 85 := by
  decide

/-- Witness for C10's amended statement at "tell me a joke" (contains the
substring "joke"): the short-circuit returns `conversation`, 0.9. -/
theorem C10_witness :
    parseIntent (CalDate.mk 2025 10 12) [] (("tell me a joke").toList) =
      createResult .conversation
        { text := some (pyStrip (("tell me a joke").toList)) } 90 [] :=
  C10_conversational_shortcircuit ⟨⟨2025, 10, 12⟩, []⟩ (("tell me a joke").toList)
    (by decide) (Or.inl (by decide))

/-! ### C8: `_clean_habit_name` normal form -/

/-- The quote characters removed by `_clean_habit_name`
(double quote, apostrophe, backquote). -/
def isQuoteC (c : Char) : Bool := c = '"' || c = '\x27' || c = '\x60'

/-- `Char.ofNat` round-trips on codepoints below the surrogate range. -/
theorem toNat_ofNat_valid (n : Nat) (h : n < 55296) : (Char.ofNat n).toNat = n := by
  have hv : n.isValidChar := Or.inl h
  rw [Char.ofNat, dif_pos hv]
  rfl

/-- A whitespace character has one of six specific codepoints. -/
theorem pyIsSpace_toNat_mem (c : Char) (h : pyIsSpace c = true) :
    c.toNat = 32 ∨ c.toNat = 9 ∨ c.toNat = 10 ∨ c.toNat = 13 ∨ c.toNat = 11 ∨ c.toNat = 12 := by
  simp only [pyIsSpace, Bool.or_eq_true, decide_eq_true_eq] at h
  rcases h with ((((h | h) | h) | h) | h) | h <;> rw [h] <;> decide

/-- A quote character has codepoint 34, 39 or 96. -/
theorem isQuoteC_toNat_mem (c : Char) (h : isQuoteC c = true) :
    c.toNat = 34 ∨ c.toNat = 39 ∨ c.toNat = 96 := by
  simp only [isQuoteC, Bool.or_eq_true, decide_eq_true_eq] at h
  rcases h with (h | h) | h <;> rw [h] <;> decide

/-- Letter codepoints are not whitespace. -/
theorem pyIsSpace_ofNat_false (n : Nat) (h1 : 65 ≤ n) (h2 : n ≤ 122) :
    pyIsSpace (Char.ofNat n) = false := by
  cases hb : pyIsSpace (Char.ofNat n) with
  | false => rfl
  | true =>
    have hmem := pyIsSpace_toNat_mem _ hb
    rw [toNat_ofNat_valid n (by omega)] at hmem
    omega

/-- Letter codepoints other than 96 are not quotes. -/
theorem isQuoteC_ofNat_false (n : Nat) (h1 : 65 ≤ n) (h2 : n ≤ 122) (h3 : n ≠ 96) :
    isQuoteC (Char.ofNat n) = false := by
  cases hb : isQuoteC (Char.ofNat n) with
  | false => rfl
  | true =>
    have hmem := isQuoteC_toNat_mem _ hb
    rw [toNat_ofNat_valid n (by omega)] at hmem
    omega

/-- Upper-casing cannot create or destroy whitespace. -/
theorem pyIsSpace_toUpper (c : Char) : pyIsSpace c.toUpper = pyIsSpace c := by
  simp only [Char.toUpper]
  split
  · rename_i h
    have hc : pyIsSpace c = false := by
      cases hb : pyIsSpace c with
      | false => rfl
      | true => have := pyIsSpace_toNat_mem c hb; omega
    rw [hc]
    exact pyIsSpace_ofNat_false _ (by omega) (by omega)
  · rfl

/-- Lower-casing cannot create or destroy whitespace. -/
theorem pyIsSpace_toLower (c : Char) : pyIsSpace c.toLower = pyIsSpace c := by
  simp only [Char.toLower]
  split
  · rename_i h
    have hc : pyIsSpace c = false := by
      cases hb : pyIsSpace c with
      | false => rfl
      | true => have := pyIsSpace_toNat_mem c hb; omega
    rw [hc]
    exact pyIsSpace_ofNat_false _ (by omega) (by omega)
  · rfl

/-- Upper-casing cannot create or destroy a quote character. -/
theorem isQuoteC_toUpper (c : Char) : isQuoteC c.toUpper = isQuoteC c := by
  simp only [Char.toUpper]
  split
  · rename_i h
    have hc : isQuoteC c = false := by
      cases hb : isQuoteC c with
      | false => rfl
      | true => have := isQuoteC_toNat_mem c hb; omega
    rw [hc]
    exact isQuoteC_ofNat_false _ (by omega) (by omega) (by omega)
  · rfl

/-- Lower-casing cannot create or destroy a quote character. -/
theorem isQuoteC_toLower (c : Char) : isQuoteC c.toLower = isQuoteC c := by
  simp only [Char.toLower]
  split
  · rename_i h
    have hc : isQuoteC c = false := by
      cases hb : isQuoteC c with
      | false => rfl
      | true => have := isQuoteC_toNat_mem c hb; omega
    rw [hc]
    exact isQuoteC_ofNat_false _ (by omega) (by omega) (by omega)
  · rfl

/-- Unfolding of `titleGo` on a cons cell. -/
theorem titleGo_cons (b : Bool) (c : Char) (rest : Str) :
    titleGo b (c :: rest) =
      (if c.isAlpha then (if b then c.toLower else c.toUpper) else c)
        :: titleGo c.isAlpha rest := rfl

/-- `titleGo` preserves any character profile that is blind to case. -/
theorem titleGo_map_profile (f : Char → Bool)
    (hU : ∀ c, f c.toUpper = f c) (hL : ∀ c, f c.toLower = f c) :
    ∀ (l : Str) (b : Bool), (titleGo b l).map f = l.map f := by
  intro l
  induction l with
  | nil => intro b; rfl
  | cons c rest ih =>
    intro b
    rw [titleGo_cons, List.map_cons, List.map_cons, ih c.isAlpha]
    congr 1
    by_cases ha : c.isAlpha = true
    · rw [if_pos ha]
      cases b with
      | false =>
        rw [if_neg (by simp)]
        exact hU c
      | true =>
        rw [if_pos rfl]
        exact hL c
    · rw [if_neg ha]

/-- The first surviving character of a `dropWhile` fails the predicate. -/
theorem head_dropWhile_false (p : Char → Bool) :
    ∀ (l : Str) (c : Char), (l.dropWhile p).head? = some c → p c = false := by
  intro l
  induction l with
  | nil => intro c h; exact absurd h (by simp)
  | cons a rest ih =>
    intro c h
    rw [List.dropWhile_cons] at h
    split at h
    · exact ih c h
    · rename_i hpa
      simp only [List.head?_cons, Option.some.injEq] at h
      rw [← h]
      exact Bool.eq_false_iff.mpr hpa

/-- A nonempty `dropWhile` keeps the last element of its input. -/
theorem getLast_dropWhile_ne_nil (p : Char → Bool) :
    ∀ (l : Str), l.dropWhile p ≠ [] → (l.dropWhile p).getLast? = l.getLast? := by
  intro l
  induction l with
  | nil => intro h; exact absurd rfl h
  | cons a rest ih =>
    intro h
    rw [List.dropWhile_cons] at h ⊢
    split
    · rename_i hpa
      rw [if_pos hpa] at h
      cases hr : rest with
      | nil =>
        rw [hr] at h
        exact absurd rfl h
      | cons b t =>
        rw [List.getLast?_cons_cons, ← hr]
        exact ih h
    · rfl

/-- A list that survives `pyStrip` nonempty starts with non-whitespace. -/
theorem pyStrip_head (l : Str) :
    ∀ c, (pyStrip l).head? = some c → pyIsSpace c = false := by
  intro c h
  unfold pyStrip at h
  rw [List.head?_reverse] at h
  have hne : (l.dropWhile pyIsSpace).reverse.dropWhile pyIsSpace ≠ [] := by
    intro hnil
    rw [hnil] at h
    exact absurd h (by simp)
  rw [getLast_dropWhile_ne_nil pyIsSpace _ hne, List.getLast?_reverse] at h
  exact head_dropWhile_false pyIsSpace l c h

/-- A list that survives `pyStrip` nonempty ends with non-whitespace. -/
theorem pyStrip_getLast (l : Str) :
    ∀ c, (pyStrip l).getLast? = some c → pyIsSpace c = false := by
  intro c h
  unfold pyStrip at h
  rw [List.getLast?_reverse] at h
  exact head_dropWhile_false pyIsSpace _ c h

/-- A list with non-whitespace ends is a `pyStrip` fixpoint. -/
theorem pyStrip_eq_self (l : Str)
    (hh : ∀ c, l.head? = some c → pyIsSpace c = false)
    (hl : ∀ c, l.getLast? = some c → pyIsSpace c = false) :
    pyStrip l = l := by
  cases l with
  | nil => rfl
  | cons a rest =>
    have ha := hh a rfl
    unfold pyStrip
    rw [List.dropWhile_cons, if_neg (by simp [ha])]
    cases hrev : (a :: rest).reverse with
    | nil => exact absurd hrev (by simp)
    | cons g t =>
      have hg : (a :: rest).getLast? = some g := by
        rw [← List.head?_reverse, hrev]
        rfl
      have hgws := hl g hg
      rw [List.dropWhile_cons, if_neg (by simp [hgws]), ← hrev, List.reverse_reverse]

/-- `collapseGo` on a non-whitespace head emits it unchanged. -/
theorem collapseGo_cons_nonws (b : Bool) (a : Char) (rest : Str) (ha : pyIsSpace a = false) :
    collapseGo b (a :: rest) = a :: collapseGo false rest := by
  simp only [collapseGo]
  rw [if_neg (by simp [ha])]

/-- `collapseGo` inside a whitespace run drops further whitespace. -/
theorem collapseGo_cons_ws_true (a : Char) (rest : Str) (ha : pyIsSpace a = true) :
    collapseGo true (a :: rest) = collapseGo true rest := by
  simp only [collapseGo]
  rw [if_pos ha, if_pos trivial]

/-- `collapseGo` entering a whitespace run emits a single space. -/
theorem collapseGo_cons_ws_false (a : Char) (rest : Str) (ha : pyIsSpace a = true) :
    collapseGo false (a :: rest) = ' ' :: collapseGo true rest := by
  simp only [collapseGo]
  rw [if_pos ha, if_neg (by simp)]

/-- `collapseGo` keeps a non-whitespace last character. -/
theorem collapseGo_getLast :
    ∀ (l : Str) (b : Bool) (x : Char), l.getLast? = some x → pyIsSpace x = false →
      (collapseGo b l).getLast? = some x := by
  intro l
  induction l with
  | nil => intro b x h hx; exact absurd h (by simp)
  | cons a rest ih =>
    intro b x h hx
    cases rest with
    | nil =>
      rw [List.getLast?_singleton, Option.some.injEq] at h
      rw [← h] at hx
      rw [collapseGo_cons_nonws b a [] hx]
      rw [show collapseGo false ([] : Str) = [] from rfl, List.getLast?_singleton, h]
    | cons d rest2 =>
      rw [List.getLast?_cons_cons] at h
      cases hsa : pyIsSpace a with
      | true =>
        cases b with
        | true =>
          rw [collapseGo_cons_ws_true a _ hsa]
          exact ih true x h hx
        | false =>
          rw [collapseGo_cons_ws_false a _ hsa]
          have hrec := ih true x h hx
          cases hcg : collapseGo true (d :: rest2) with
          | nil => rw [hcg] at hrec; exact absurd hrec (by simp)
          | cons y t =>
            rw [hcg] at hrec
            rw [List.getLast?_cons_cons]
            exact hrec
      | false =>
        rw [collapseGo_cons_nonws b a _ hsa]
        have hrec := ih false x h hx
        cases hcg : collapseGo false (d :: rest2) with
        | nil => rw [hcg] at hrec; exact absurd hrec (by simp)
        | cons y t =>
          rw [hcg] at hrec
          rw [List.getLast?_cons_cons]
          exact hrec

/-- Every remainder the matcher returns is a suffix of its input. -/
theorem reMatchF_mem_suffix :
    ∀ (fuel : Nat) (re : RE) (cs f : Str) (cp : Caps),
      (f, cp) ∈ reMatchF fuel re cs → f <:+ cs := by
  intro fuel
  induction fuel with
  | zero => intro re cs f cp h; exact absurd h (by simp [reMatchF])
  | succ fuel ih =>
    intro re cs f cp h
    cases re with
    | nul => exact absurd h (by simp [reMatchF])
    | eps =>
      simp only [reMatchF, List.mem_singleton, Prod.mk.injEq] at h
      rw [h.1]
    | lit l =>
      simp only [reMatchF] at h
      split at h
      · simp only [List.mem_singleton, Prod.mk.injEq] at h
        rw [h.1]
        exact List.drop_suffix _ _
      · exact absurd h (by simp)
    | cls p =>
      cases cs with
      | nil => exact absurd h (by simp [reMatchF])
      | cons a rest =>
        simp only [reMatchF] at h
        split at h
        · simp only [List.mem_singleton, Prod.mk.injEq] at h
          rw [h.1]
          exact ⟨[a], rfl⟩
        · exact absurd h (by simp)
    | alt r s =>
      simp only [reMatchF, List.mem_append] at h
      rcases h with h | h
      · exact ih r cs f cp h
      · exact ih s cs f cp h
    | seq r s =>
      simp only [reMatchF, List.mem_flatMap, List.mem_map] at h
      obtain ⟨m, hm, n, hn, heq⟩ := h
      have h1 : n.1 = f := congrArg Prod.fst heq
      exact h1 ▸ ((ih s m.1 n.1 n.2 hn).trans (ih r cs m.1 m.2 hm))
    | starL r =>
      simp only [reMatchF, List.mem_cons] at h
      rcases h with h | h
      · have h1 : f = cs := congrArg Prod.fst h
        rw [h1]
      · simp only [List.mem_flatMap] at h
        obtain ⟨m, hm, hin⟩ := h
        split at hin
        · simp only [List.mem_map] at hin
          obtain ⟨n, hn, heq⟩ := hin
          have h1 : n.1 = f := congrArg Prod.fst heq
          exact h1 ▸ ((ih (.starL r) m.1 n.1 n.2 hn).trans (ih r cs m.1 m.2 hm))
        · exact absurd hin (by simp)
    | starG r =>
      simp only [reMatchF, List.mem_append, List.mem_flatMap, List.mem_singleton] at h
      rcases h with h | h
      · obtain ⟨m, hm, hin⟩ := h
        split at hin
        · simp only [List.mem_map] at hin
          obtain ⟨n, hn, heq⟩ := hin
          have h1 : n.1 = f := congrArg Prod.fst heq
          exact h1 ▸ ((ih (.starG r) m.1 n.1 n.2 hn).trans (ih r cs m.1 m.2 hm))
        · exact absurd hin (by simp)
      · have h1 : f = cs := congrArg Prod.fst h
        rw [h1]
    | grp n r =>
      simp only [reMatchF, List.mem_map] at h
      obtain ⟨m, hm, heq⟩ := h
      have h1 : m.1 = f := congrArg Prod.fst heq
      exact h1 ▸ ih r cs m.1 m.2 hm
    | eos =>
      simp only [reMatchF] at h
      split at h
      · simp only [List.mem_singleton, Prod.mk.injEq] at h
        rw [h.1]
      · exact absurd h (by simp)

/-- Removing an anchored match only removes characters. -/
theorem subAnchoredOnce_subset (re : RE) (cs : Str) : subAnchoredOnce re cs ⊆ cs := by
  unfold subAnchoredOnce
  cases hh : (reMatch re cs).head? with
  | none => exact List.Subset.refl _
  | some m =>
    have hmem : m ∈ reMatch re cs := by
      cases hl : reMatch re cs with
      | nil => rw [hl] at hh; exact absurd hh (by simp)
      | cons x t =>
        rw [hl] at hh
        simp only [List.head?_cons, Option.some.injEq] at hh
        rw [← hh]
        exact List.mem_cons_self x t
    exact (reMatchF_mem_suffix _ re cs m.1 m.2 hmem).subset

/-- Removing a searched match only removes characters. -/
theorem subSearchOnce_subset (re : RE) (cs : Str) : subSearchOnce re cs ⊆ cs := by
  unfold subSearchOnce
  cases hs : reSearchSpan re cs with
  | none => exact List.Subset.refl _
  | some pr => exact List.append_subset.mpr ⟨List.take_subset _ _, List.drop_subset _ _⟩

/-- A fold of anchored removals only removes characters. -/
theorem foldl_subAnchored_subset :
    ∀ (pats : List RE) (cs : Str),
      pats.foldl (fun acc p => subAnchoredOnce p acc) cs ⊆ cs := by
  intro pats
  induction pats with
  | nil => intro cs; exact List.Subset.refl _
  | cons p rest ih =>
    intro cs
    simp only [List.foldl_cons]
    intro a ha
    exact subAnchoredOnce_subset p cs (ih (subAnchoredOnce p cs) ha)

/-- Whitespace collapsing only keeps input characters or inserts spaces. -/
theorem collapseGo_subset :
    ∀ (l : Str) (b : Bool) (c : Char), c ∈ collapseGo b l → c ∈ l ∨ c = ' ' := by
  intro l
  induction l with
  | nil => intro b c h; exact absurd h (by simp [collapseGo])
  | cons a rest ih =>
    intro b c h
    cases hsa : pyIsSpace a with
    | true =>
      cases b with
      | true =>
        rw [collapseGo_cons_ws_true a _ hsa] at h
        rcases ih true c h with h2 | h2
        · exact Or.inl (List.mem_cons_of_mem a h2)
        · exact Or.inr h2
      | false =>
        rw [collapseGo_cons_ws_false a _ hsa] at h
        rcases List.mem_cons.mp h with h2 | h2
        · exact Or.inr h2
        · rcases ih true c h2 with h3 | h3
          · exact Or.inl (List.mem_cons_of_mem a h3)
          · exact Or.inr h3
    | false =>
      rw [collapseGo_cons_nonws b a _ hsa] at h
      rcases List.mem_cons.mp h with h2 | h2
      · rw [h2]
        exact Or.inl (List.mem_cons_self a rest)
      · rcases ih false c h2 with h3 | h3
        · exact Or.inl (List.mem_cons_of_mem a h3)
        · exact Or.inr h3

/-- Stripping only removes characters. -/
theorem pyStrip_subset (l : Str) : pyStrip l ⊆ l := by
  intro c hc
  unfold pyStrip at hc
  rw [List.mem_reverse] at hc
  have h2 := List.dropWhile_subset pyIsSpace hc
  rw [List.mem_reverse] at h2
  exact List.dropWhile_subset pyIsSpace h2

/-- Every character of a split word comes from the accumulator or the input. -/
theorem pySplitGo_subset :
    ∀ (s cur w : Str), w ∈ pySplitGo cur s → ∀ c ∈ w, c ∈ cur ∨ c ∈ s := by
  intro s
  induction s with
  | nil =>
    intro cur w hw c hc
    simp only [pySplitGo] at hw
    split at hw
    · exact absurd hw (by simp)
    · simp only [List.mem_singleton] at hw
      rw [hw] at hc
      exact Or.inl (List.mem_reverse.mp hc)
  | cons a rest ih =>
    intro cur w hw c hc
    simp only [pySplitGo] at hw
    by_cases ha : pyIsSpace a = true
    · rw [if_pos ha] at hw
      split at hw
      · rcases ih [] w hw c hc with h | h
        · exact absurd h (by simp)
        · exact Or.inr (List.mem_cons_of_mem a h)
      · rcases List.mem_cons.mp hw with h | h
        · rw [h] at hc
          exact Or.inl (List.mem_reverse.mp hc)
        · rcases ih [] w h c hc with h2 | h2
          · exact absurd h2 (by simp)
          · exact Or.inr (List.mem_cons_of_mem a h2)
    · rw [if_neg ha] at hw
      rcases ih (a :: cur) w hw c hc with h | h
      · rcases List.mem_cons.mp h with h2 | h2
        · rw [h2]
          exact Or.inr (List.mem_cons_self a rest)
        · exact Or.inl h2
      · exact Or.inr (List.mem_cons_of_mem a h)

/-- Every character of a join comes from a word or is a space. -/
theorem joinSpace_subset :
    ∀ (ws : List Str) (c : Char), c ∈ joinSpace ws → (∃ w ∈ ws, c ∈ w) ∨ c = ' ' := by
  intro ws
  induction ws with
  | nil => intro c h; exact absurd h (by simp [joinSpace])
  | cons w rest ih =>
    intro c h
    cases rest with
    | nil =>
      simp only [joinSpace] at h
      exact Or.inl ⟨w, List.mem_cons_self _ _, h⟩
    | cons d rest2 =>
      simp only [joinSpace] at h
      rcases List.mem_append.mp h with h1 | h1
      · exact Or.inl ⟨w, List.mem_cons_self _ _, h1⟩
      · rcases List.mem_cons.mp h1 with h2 | h2
        · exact Or.inr h2
        · rcases ih c h2 with ⟨v, hv, hcv⟩ | h3
          · exact Or.inl ⟨v, List.mem_cons_of_mem _ hv, hcv⟩
          · exact Or.inr h3

/-- The words `_clean_habit_name` keeps after noise removal
(the value of `cleaned.split()` minus noise words). -/
def cleanKept (name : Str) : List Str :=
  (pySplit (subSearchOnce noiseTrailPat
      (noiseLeadPats.foldl (fun acc p => subAnchoredOnce p acc)
        (collapseWS ((pyStrip name).filter fun c =>
          !(c = '"' || c = '\x27' || c = '\x60')))))).filter
    fun w => !(noiseWords.contains (lowerStr w))

/-- The cleaner's re-joined, re-collapsed text before title casing. -/
def cleanCore (name : Str) : Str :=
  collapseWS (pyStrip (joinSpace (cleanKept name)))

/-- Unfolding `cleanHabitName` on nonempty input. -/
theorem cleanHabitName_eq (name : Str) (h0 : name ≠ []) :
    cleanHabitName name =
      if cleanCore name = [] then [] else titleCase (cleanCore name) := by
  unfold cleanHabitName cleanCore cleanKept
  rw [if_neg h0]

/-- Filtering out quotes leaves no quotes. -/
theorem filter_no_quotes (l : Str) :
    ∀ c ∈ l.filter (fun c => !(c = '"' || c = '\x27' || c = '\x60')), isQuoteC c = false := by
  intro c hc
  have h := (List.mem_filter.mp hc).2
  simpa [isQuoteC] using h

/-- Characters of the join of quote-free words are quote-free. -/
theorem no_quotes_joinSpace (ws : List Str) (hq : ∀ w ∈ ws, ∀ c ∈ w, isQuoteC c = false) :
    ∀ c ∈ joinSpace ws, isQuoteC c = false := by
  intro c hc
  rcases joinSpace_subset ws c hc with ⟨w, hw, hcw⟩ | h
  · exact hq w hw c hcw
  · rw [h]
    decide

/-- Every kept word of the cleaner is quote-free. -/
theorem cleanKept_no_quotes (name : Str) :
    ∀ w ∈ cleanKept name, ∀ c ∈ w, isQuoteC c = false := by
  intro w hw c hc
  unfold cleanKept at hw
  have hw2 := List.mem_of_mem_filter hw
  rcases pySplitGo_subset _ [] w hw2 c hc with h | h
  · exact absurd h (List.not_mem_nil c)
  · have h4 := subSearchOnce_subset noiseTrailPat _ h
    have h3 := foldl_subAnchored_subset noiseLeadPats _ h4
    rcases collapseGo_subset _ false c h3 with h2 | h2
    · exact filter_no_quotes _ c h2
    · rw [h2]
      decide

/-- The cleaner's pre-title-case text is quote-free. -/
theorem cleanCore_no_quotes (name : Str) : ∀ c ∈ cleanCore name, isQuoteC c = false := by
  intro c hc
  unfold cleanCore at hc
  rcases collapseGo_subset _ false c hc with h | h
  · have h2 := pyStrip_subset _ h
    exact no_quotes_joinSpace _ (cleanKept_no_quotes name) c h2
  · rw [h]
    decide

/-- Title casing keeps a quote-free list quote-free. -/
theorem titleCase_no_quotes (l : Str) (hq : ∀ c ∈ l, isQuoteC c = false) :
    ∀ c ∈ titleCase l, isQuoteC c = false := by
  intro c hc
  unfold titleCase at hc
  have hmap := titleGo_map_profile isQuoteC isQuoteC_toUpper isQuoteC_toLower l false
  have hmem : isQuoteC c ∈ (titleGo false l).map isQuoteC := List.mem_map_of_mem _ hc
  rw [hmap] at hmem
  obtain ⟨d, hd, he⟩ := List.mem_map.mp hmem
  rw [← he]
  exact hq d hd

/-- Collapsing a stripped list starts with non-whitespace. -/
theorem collapseWS_pyStrip_head (X : Str) :
    ∀ c, (collapseWS (pyStrip X)).head? = some c → pyIsSpace c = false := by
  intro c h
  cases hY : pyStrip X with
  | nil =>
    rw [hY] at h
    exact absurd h (by simp [collapseWS, collapseGo])
  | cons y ys =>
    have hy : pyIsSpace y = false := pyStrip_head _ y (by rw [hY]; rfl)
    unfold collapseWS at h
    rw [hY, collapseGo_cons_nonws false y ys hy] at h
    simp only [List.head?_cons, Option.some.injEq] at h
    rw [← h]
    exact hy

/-- Collapsing a stripped list ends with non-whitespace. -/
theorem collapseWS_pyStrip_getLast (X : Str) :
    ∀ c, (collapseWS (pyStrip X)).getLast? = some c → pyIsSpace c = false := by
  intro c h
  cases hY : (pyStrip X).getLast? with
  | none =>
    rw [List.getLast?_eq_none_iff] at hY
    rw [hY] at h
    exact absurd h (by simp [collapseWS, collapseGo])
  | some g =>
    have hg : pyIsSpace g = false := pyStrip_getLast _ g hY
    unfold collapseWS at h
    rw [collapseGo_getLast _ false g hY hg] at h
    injection h with h
    rw [← h]
    exact hg

/-- The cleaner's pre-title-case text starts with non-whitespace. -/
theorem cleanCore_head (name : Str) :
    ∀ c, (cleanCore name).head? = some c → pyIsSpace c = false :=
  fun c h => collapseWS_pyStrip_head (joinSpace (cleanKept name)) c h

/-- The cleaner's pre-title-case text ends with non-whitespace. -/
theorem cleanCore_getLast (name : Str) :
    ∀ c, (cleanCore name).getLast? = some c → pyIsSpace c = false :=
  fun c h => collapseWS_pyStrip_getLast (joinSpace (cleanKept name)) c h

/-- Title casing a list with non-whitespace ends is a strip fixpoint. -/
theorem titleCase_pyStrip_fix (l : Str)
    (hh : ∀ c, l.head? = some c → pyIsSpace c = false)
    (hl : ∀ c, l.getLast? = some c → pyIsSpace c = false) :
    pyStrip (titleCase l) = titleCase l := by
  apply pyStrip_eq_self
  · intro c h
    cases l with
    | nil => exact absurd h (by simp [titleCase, titleGo])
    | cons y t =>
      unfold titleCase at h
      rw [titleGo_cons] at h
      simp only [List.head?_cons, Option.some.injEq] at h
      have hy := hh y rfl
      rw [← h]
      by_cases ha : y.isAlpha = true
      · rw [if_pos ha, if_neg (by simp)]
        rw [pyIsSpace_toUpper]
        exact hy
      · rw [if_neg ha]
        exact hy
  · intro c h
    unfold titleCase at h
    have hmap := titleGo_map_profile pyIsSpace pyIsSpace_toUpper pyIsSpace_toLower l false
    have h2 : (List.map pyIsSpace (titleGo false l)).getLast? = some (pyIsSpace c) := by
      rw [List.getLast?_map, h]
      rfl
    rw [hmap, List.getLast?_map] at h2
    cases hY : l.getLast? with
    | none =>
      rw [hY] at h2
      exact absurd h2 (by simp)
    | some g =>
      rw [hY] at h2
      simp only [Option.map_some', Option.some.injEq] at h2
      rw [← h2]
      exact hl g hY

/-- The cleaner's final text is a strip fixpoint. -/
theorem cleanTail_strip (name : Str) :
    pyStrip (if cleanCore name = [] then ([] : Str) else titleCase (cleanCore name)) =
      if cleanCore name = [] then ([] : Str) else titleCase (cleanCore name) := by
  split
  · rfl
  · exact titleCase_pyStrip_fix _ (cleanCore_head name) (cleanCore_getLast name)

/-- The cleaner's final text is quote-free. -/
theorem cleanTail_no_quotes (name : Str) :
    ∀ c ∈ (if cleanCore name = [] then ([] : Str) else titleCase (cleanCore name)),
      isQuoteC c = false := by
  intro c hc
  split at hc
  · exact absurd hc (List.not_mem_nil c)
  · exact titleCase_no_quotes _ (cleanCore_no_quotes name) c hc

/-- C8: corrected.  `_clean_habit_name` strips all leading and trailing
whitespace and removes every quote character (its output is a `pyStrip`
fixpoint and contains no double quote, apostrophe or backquote), but it is
NOT idempotent: see the counterexample below. -/
theorem C8_cleaned_normal_form (name : Str) :
    pyStrip (cleanHabitName name) = cleanHabitName name ∧
    ∀ c ∈ cleanHabitName name, isQuoteC c = false := by
  by_cases h0 : name = []
  · subst h0
    exact ⟨rfl, fun c hc => absurd (show c ∈ ([] : Str) from hc) (List.not_mem_nil c)⟩
  · rw [cleanHabitName_eq name h0]
    exact ⟨cleanTail_strip name, cleanTail_no_quotes name⟩

/-- C8 counterexample: the cleaner is not idempotent.  On
"habit make tea" it first yields "Make Tea" ("habit " is anchored leading
noise, but "make" is not, mid-phrase); re-running it on "Make Tea" strips
the now-leading "Make " (a leading noise verb), yielding "Tea". -/
theorem C8_counterexample :
    cleanHabitName (cleanHabitName (("habit make tea").toList)) ≠
      cleanHabitName (("habit make tea").toList) := by
  decide

/-- C8 witness: the normal-form theorem evaluated at a concrete input. -/
theorem C8_witness :
    cleanHabitName (("  add habit \"drink water\" daily  ").toList) = ("Drink Water").toList ∧
    pyStrip (cleanHabitName (("  add habit \"drink water\" daily  ").toList)) =
      cleanHabitName (("  add habit \"drink water\" daily  ").toList) :=
  ⟨by decide, (C8_cleaned_normal_form (("  add habit \"drink water\" daily  ").toList)).1⟩
